import Mathlib

/-!
Verification of the MyLib in-place allocator family (tx_memory.cpp,
tx_memory_halffit.cpp, tx_automemory.cpp / .hpp).

The C++ code is shallowly embedded: `size_t` values become `Nat` with
explicit reduction modulo `2^32` at every arithmetic step where the C
code can wrap (the code static_asserts `sizeof(size_t) == 4`); raw
memory becomes a total map from byte addresses to stored values; loops
become fuel-indexed recursive functions returning `none` when the fuel
runs out (which over-approximates non-termination); a failing
`TX_ASSERT` (which loops on a breakpoint instruction, i.e. halts) is
modelled by an explicit error result carrying the state at the halt.

Two memory granularities are used, matching how each allocator actually
addresses memory:
* `LinAllocator`, `AllocatorSeqFit` and `AllocatorHalfFit` only ever
  load and store whole 4-byte fields at distinct, non-overlapping byte
  addresses, so their memory is a map from the byte address of a field
  to the full stored word (`Mem`).
* `AutoLinAlloc` computes a header size of 11 bytes
  (`sizeof(MemBlock) - sizeof(char)` where `MemBlock` is NOT packed:
  layout `size:4  ref_count:4  content:1  pad:3`, so `sizeof = 12`),
  which makes its word accesses overlap, so it is modelled byte by byte
  (`Mem8`) with little-endian 4-byte loads and stores.
-/

namespace TxMem

/-- Reduction of a `Nat` to the value of the corresponding `size_t`
(32-bit, per the `static_assert((1u << BYTE_PER_WORD_LOG2) == sizeof(size_t))`
in the sources). -/
def w32 (x : Nat) : Nat := x % 4294967296

/-- 32-bit wrapping subtraction, modelling `size_t` subtraction `a - b`. -/
def wsub32 (a b : Nat) : Nat := (a + (4294967296 - b % 4294967296)) % 4294967296

theorem w32_eq_of_lt {x : Nat} (h : x < 4294967296) : w32 x = x :=
  Nat.mod_eq_of_lt h

theorem wsub32_eq_sub {a b : Nat} (hb : b ≤ a) (ha : a < 4294967296) :
    wsub32 a b = a - b := by
  unfold wsub32
  have hb32 : b < 4294967296 := lt_of_le_of_lt hb ha
  rw [Nat.mod_eq_of_lt hb32]
  omega

/-- Word-granular memory: each key is the byte address of a 4-byte field,
holding the full stored word.  Faithful for the three allocators whose
loads and stores never overlap byte ranges under distinct keys. -/
def Mem : Type := Nat → Nat

/-- Read the word stored at byte address `a`. -/
def Mem.read (m : Mem) (a : Nat) : Nat := m a

/-- Store word `v` at byte address `a`. -/
def Mem.write (m : Mem) (a v : Nat) : Mem := Function.update m a v

theorem Mem.read_write_same (m : Mem) (a v : Nat) : (m.write a v).read a = v := by
  simp [Mem.read, Mem.write]

theorem Mem.read_write_ne (m : Mem) {a b : Nat} (v : Nat) (h : b ≠ a) :
    (m.write a v).read b = m.read b := by
  simp [Mem.read, Mem.write, Function.update, h]

theorem Mem.write_self (m : Mem) (a : Nat) : m.write a (m.read a) = m := by
  simp [Mem.read, Mem.write]

/-! ### AutoLinAlloc::SharedPtr::swap (tx_automemory.hpp, lines 64-69)

The source performs three in-place XOR assignments through the two
handle objects:
  this->mem_ptr = this->mem_ptr ^ b.mem_ptr;
  b.mem_ptr    = this->mem_ptr ^ b.mem_ptr;
  this->mem_ptr = this->mem_ptr ^ b.mem_ptr;
Because the statements act through the object references, the result
depends on whether `this` and `&b` are the same object.  Both aliasing
cases are embedded.  Addresses are `size_t` values; `Nat.xor` agrees
with 32-bit XOR on values below `2^32` and never leaves that range. -/

/-- `swap` when `this` and `b` are two distinct handle objects holding
addresses `x` and `y`: returns the pair (new `this->mem_ptr`, new
`b.mem_ptr`). -/
def SharedPtr.swapDistinct (x y : Nat) : Nat × Nat :=
  let x1 := x ^^^ y
  let y1 := x1 ^^^ y
  let x2 := x1 ^^^ y1
  (x2, y1)

/-- `swap` when `this` and `b` alias the same handle object holding
address `x`: all three statements read and write the single cell. -/
def SharedPtr.swapSelf (x : Nat) : Nat :=
  let x1 := x ^^^ x
  let x2 := x1 ^^^ x1
  let x3 := x2 ^^^ x2
  x3

/-- C9 counterexample: two *distinct* handles that already refer to the
same address 0x1008 are NOT zeroed by `swap`; both still hold 0x1008
afterwards.  The claim asserts they would both become null. -/
theorem c9_counterexample :
    SharedPtr.swapDistinct 4104 4104 = (4104, 4104) ∧ (4104 : Nat) ≠ 0 := by
  constructor
  · simp [SharedPtr.swapDistinct, Nat.xor_self, Nat.zero_xor, Nat.xor_zero]
  · decide

/-- C9 (amended): `swap` on two distinct handle objects exchanges the two
held addresses (in particular two distinct handles holding equal
addresses keep that address); only a self-swap — `swap` invoked with the
handle object itself as its argument — zeroes the handle. -/
theorem c9_swap_xor_exchange :
    (∀ x y : Nat, SharedPtr.swapDistinct x y = (y, x)) ∧
    (∀ x : Nat, SharedPtr.swapSelf x = 0) := by
  have h1 : ∀ a b : Nat, (a ^^^ b) ^^^ b = a := by
    intro a b
    rw [Nat.xor_assoc, Nat.xor_self, Nat.xor_zero]
  have h2 : ∀ a b : Nat, (a ^^^ b) ^^^ a = b := by
    intro a b
    rw [Nat.xor_comm a b, Nat.xor_assoc, Nat.xor_self, Nat.xor_zero]
  constructor
  · intro x y
    unfold SharedPtr.swapDistinct
    refine Prod.ext ?_ ?_
    · show ((x ^^^ y) ^^^ ((x ^^^ y) ^^^ y)) = y
      rw [h1 x y]
      exact h2 x y
    · exact h1 x y
  · intro x
    unfold SharedPtr.swapSelf
    show ((x ^^^ x) ^^^ (x ^^^ x)) ^^^ ((x ^^^ x) ^^^ (x ^^^ x)) = 0
    rw [Nat.xor_self]

/-! ### LinAllocator (tx_memory.cpp, lines 26-206)

Block layout (`__attribute__((packed))`, `sizeof(size_t) = 4`):
`state` at offset 0, `size` at offset 4, user content from offset 8, so
`BLOCK_INFO_SIZE = 8`.  `MIN_ALLOC_SIZE_LOG2 = 2`, `BYTE_PER_WORD_LOG2 = 2`. -/

/-- `LinAllocator::MemBlock::State::Used` (0xF0F0F0F0). -/
def LIN_STATE_USED : Nat := 0xF0F0F0F0

/-- `LinAllocator::MemBlock::State::Free` (0xF0F0F0F1). -/
def LIN_STATE_FREE : Nat := 0xF0F0F0F1

/-- The members of a `LinAllocator` object together with the managed
memory.  A block at address `b` stores its state word at `b` and its
size at `b + 4`. -/
structure LinState where
  mem : Mem
  next_search_block : Nat
  address_start : Nat
  address_end : Nat

/-- `LinAllocatorImpl::find_next_block` (tx_memory.cpp 68-76). -/
def LinState.findNextBlock (s : LinState) (b : Nat) : Nat :=
  let next := w32 (b + s.mem.read (b + 4))
  if next = s.address_end then s.address_start else next

/-- `LinAllocatorImpl::absorb_next_block_if_possible` (tx_memory.cpp 78-88).
Note the mutation the source performs when the following block is free:
`next_block_ptr->size += next_block_ptr->size;` — it doubles the size of
the *next* block and leaves the size of `block_ptr` untouched. -/
def LinState.absorbNext (s : LinState) (b : Nat) : Bool × LinState :=
  let next := w32 (b + s.mem.read (b + 4))
  if next = s.address_end then (false, s)
  else if s.mem.read next ≠ LIN_STATE_FREE then (false, s)
  else
    let m1 := s.mem.write (next + 4) (w32 (s.mem.read (next + 4) + s.mem.read (next + 4)))
    (true, { s with mem := m1 })

/-- `LinAllocatorImpl::split_block_if_possible` (tx_memory.cpp 90-99). -/
def LinState.splitBlock (s : LinState) (b first_block_size : Nat) : LinState :=
  if s.mem.read (b + 4) ≥ w32 (first_block_size + 8 + 4) then
    let nb := w32 (b + first_block_size)
    let m1 := s.mem.write (nb + 4) (wsub32 (s.mem.read (b + 4)) first_block_size)
    let m2 := m1.write nb LIN_STATE_FREE
    let m3 := m2.write (b + 4) first_block_size
    { s with mem := m3 }
  else s

/-- The inner loop of `LinAllocatorImpl::allocate` (tx_memory.cpp 120-125).
In the source the `while` line has no terminating semicolon, so the
following `if` statement *is* the loop body:

    while (this->absorb_next_block_if_possible(search_block))
    if (search_block->size >= block_size)
    {
      this->split_block_if_possible(search_block, block_size);
      break;
    }

Hence the fit test only runs after a successful absorption, and `break`
exits this inner loop only.  Returns the state and whether the loop was
left through `break` (after a possible split); `none` means the fuel ran
out (the loop does not terminate). -/
def LinState.linInner : Nat → LinState → Nat → Nat → Option (LinState × Bool)
  | 0, _, _, _ => none
  | fuel + 1, s, b, block_size =>
    let p := s.absorbNext b
    if p.1 then
      let s1 := p.2
      if s1.mem.read (b + 4) ≥ block_size then some (s1.splitBlock b block_size, true)
      else LinState.linInner fuel s1 b block_size
    else some (s, false)

/-- The outer `while (1)` scan of `LinAllocatorImpl::allocate`
(tx_memory.cpp 116-135).  Because the `break` inside the inner loop only
exits the inner loop (see `LinState.linInner`), the outer loop can exit
solely through `return 1`; the success epilogue at lines 137-142 is
unreachable.  Result: `none` when the fuel runs out, otherwise the
returned status, the written content pointer (`none`: `*content_ptr` not
written) and the final state. -/
def LinState.allocLoop : Nat → LinState → Nat → Nat → Option (Nat × Option Nat × LinState)
  | 0, _, _, _ => none
  | fuel + 1, s, search, block_size =>
    if s.mem.read search = LIN_STATE_FREE then
      match LinState.linInner (fuel + 1) s search block_size with
      | none => none
      | some p =>
        let search1 := p.1.findNextBlock search
        if search1 ≤ p.1.next_search_block ∧
            w32 (search1 + p.1.mem.read (search1 + 4)) > p.1.next_search_block then
          some (1, none, p.1)
        else LinState.allocLoop fuel p.1 search1 block_size
    else
      let search1 := s.findNextBlock search
      if search1 ≤ s.next_search_block ∧
          w32 (search1 + s.mem.read (search1 + 4)) > s.next_search_block then
        some (1, none, s)
      else LinState.allocLoop fuel s search1 block_size

/-- The size-adjustment prologue shared verbatim by
`LinAllocatorImpl::allocate` and `AllocatorSeqFitImpl::allocate`
(tx_memory.cpp 106-113 and 286-293): raise `content_size` to the minimum
allocation size `1 << 2`, round up to a word multiple, add
`BLOCK_INFO_SIZE = 8`; all in `size_t` arithmetic. -/
def wordBlockSize (content_size : Nat) : Nat :=
  let cs := if content_size < 4 then 4 else content_size
  w32 (w32 ((((wsub32 cs 1) >>> 2) + 1) <<< 2) + 8)

/-- `LinAllocatorImpl::allocate` (tx_memory.cpp 102-143): size adjustment
followed by the scan loop.  The leading `TX_ASSERT(this->is_initialized())`
halts when violated; a halt, like exhausted fuel, yields `none`. -/
def LinState.allocate (s : LinState) (fuel content_size : Nat) : Option (Nat × Option Nat × LinState) :=
  if s.address_start = s.address_end then none
  else LinState.allocLoop fuel s s.next_search_block (wordBlockSize content_size)

/-- `LinAllocatorImpl::free` (tx_memory.cpp 145-158). -/
def LinState.free (s : LinState) (content_ptr : Nat) : Option (Nat × LinState) :=
  if s.address_start = s.address_end then none
  else
    let b := wsub32 content_ptr 8
    if s.mem.read b ≠ LIN_STATE_USED then some (1, s)
    else some (0, { s with mem := s.mem.write b LIN_STATE_FREE })

/-- `LinAllocator::initialize` (tx_memory.cpp 166-184) called on a fresh
allocator object (`address_start = address_end = 0`, so the
`!is_initialized()` assertion passes).  `none` models a halted
`TX_ASSERT`. -/
def linInit (mem : Mem) (addr size : Nat) : Option LinState :=
  if addr % 4 = 0 ∧ size % 4 = 0 ∧ w32 (addr + size) > addr ∧ size ≥ 8 + 4 then
    some { mem := (mem.write addr LIN_STATE_FREE).write (addr + 4) size,
           next_search_block := addr,
           address_start := addr,
           address_end := w32 (addr + size) }
  else none

/-- An arbitrary content of the backing region before initialization. -/
def demoMem : Mem := fun _ => 0

/-- C2: on a freshly initialized 512-byte pool the very first
`alloc(4)` — for which the single 512-byte free block is amply large —
returns status 1 (OutOfMemory) instead of 0 and leaves the state
unchanged: the missing semicolon after the inner `while` at
tx_memory.cpp:120 puts the fit test inside the absorption loop, so a
fitting block is never detected unless an absorption succeeded first. -/
theorem c2_lin_first_alloc_oom :
    ∃ s : LinState, linInit demoMem 4096 512 = some s ∧
      s.allocate 20 4 = some (1, none, s) := by
  refine ⟨_, rfl, ?_⟩
  rfl

/-! ### AllocatorSeqFit (tx_memory.cpp, lines 214-373)

Block layout (`sizeof(size_t) = 4`): `size` at offset 0, `ref_count`
at offset 4, user content from offset 8, `BLOCK_INFO_SIZE = 8`.
Atomic loads and stores with their memory orders are modelled as plain
reads and writes: every public operation runs with interrupts disabled
on a single core, so each call is a serialized state transformation. -/

/-- The members of an `AllocatorSeqFit` object together with the
managed memory. -/
structure SeqFitState where
  mem : Mem
  next_search_block : Nat
  address_start : Nat
  address_end : Nat

/-- `AllocatorSeqFitImpl::find_next_block` (tx_memory.cpp 248-256). -/
def SeqFitState.findNextBlock (s : SeqFitState) (b : Nat) : Nat :=
  let next := w32 (b + s.mem.read b)
  if next = s.address_end then s.address_start else next

/-- The write performed by a successful
`AllocatorSeqFitImpl::absorb_next_block_if_possible` (tx_memory.cpp 266):
`next_block_ptr->size += next_block_ptr->size;` — the *next* block's
size is doubled and `block_ptr`'s size is untouched. -/
def SeqFitState.absorbWrite (s : SeqFitState) (b : Nat) : SeqFitState :=
  let next := w32 (b + s.mem.read b)
  let m1 := s.mem.write next (w32 (s.mem.read next + s.mem.read next))
  { s with mem := m1 }

/-- `AllocatorSeqFitImpl::absorb_next_block_if_possible` (tx_memory.cpp
258-268). -/
def SeqFitState.absorbNext (s : SeqFitState) (b : Nat) : Bool × SeqFitState :=
  let next := w32 (b + s.mem.read b)
  if next = s.address_end then (false, s)
  else if s.mem.read (next + 4) > 0 then (false, s)
  else (true, s.absorbWrite b)

/-- The inner `while (absorb_next_block_if_possible(search_block));` of
`AllocatorSeqFitImpl::allocate` (tx_memory.cpp 301; this one ends with a
semicolon, so it has an empty body).  `none` when the fuel runs out. -/
def SeqFitState.absorbLoop : Nat → SeqFitState → Nat → Option SeqFitState
  | 0, _, _ => none
  | fuel + 1, s, b =>
    let p := s.absorbNext b
    if p.1 then SeqFitState.absorbLoop fuel p.2 b else some s

/-- `AllocatorSeqFitImpl::split_block_if_possible` (tx_memory.cpp 270-279). -/
def SeqFitState.splitBlock (s : SeqFitState) (b first_block_size : Nat) : SeqFitState :=
  if s.mem.read b ≥ w32 (first_block_size + 8 + 4) then
    let nb := w32 (b + first_block_size)
    let m1 := s.mem.write nb (wsub32 (s.mem.read b) first_block_size)
    let m2 := m1.write (nb + 4) 0
    let m3 := m2.write b first_block_size
    { s with mem := m3 }
  else s

/-- The success epilogue of `AllocatorSeqFitImpl::allocate` (tx_memory.cpp
314-317): store `ref_count = 1` and move the search cursor to the chosen
block. -/
def SeqFitState.markUsed (s : SeqFitState) (search : Nat) : SeqFitState :=
  { s with mem := s.mem.write (search + 4) 1, next_search_block := search }

/-- The `while (1)` scan of `AllocatorSeqFitImpl::allocate` (tx_memory.cpp
297-312) together with the success epilogue at lines 314-319 (reached
through `break`): mark the block used (`ref_count = 1`), write the
content pointer `&search_block->content` (= block + 8) and move the
search cursor.  On a full wrap (`search_distance >= pool size`) the
status 1 is returned with `*content_ptr` never written. -/
def SeqFitState.allocLoop : Nat → SeqFitState → Nat → Nat → Nat → Option (Nat × Option Nat × SeqFitState)
  | 0, _, _, _, _ => none
  | fuel + 1, s, search, dist, block_size =>
    if s.mem.read (search + 4) = 0 then
      match SeqFitState.absorbLoop (fuel + 1) s search with
      | none => none
      | some s1 =>
        if s1.mem.read search ≥ block_size then
          some (0, some (search + 8), (s1.splitBlock search block_size).markUsed search)
        else
          let dist1 := w32 (dist + s1.mem.read search)
          if dist1 ≥ wsub32 s1.address_end s1.address_start then some (1, none, s1)
          else SeqFitState.allocLoop fuel s1 (s1.findNextBlock search) dist1 block_size
    else
      let dist1 := w32 (dist + s.mem.read search)
      if dist1 ≥ wsub32 s.address_end s.address_start then some (1, none, s)
      else SeqFitState.allocLoop fuel s (s.findNextBlock search) dist1 block_size

/-- `AllocatorSeqFitImpl::allocate` (tx_memory.cpp 282-320). -/
def SeqFitState.allocate (s : SeqFitState) (fuel content_size : Nat) : Option (Nat × Option Nat × SeqFitState) :=
  if s.address_start = s.address_end then none
  else SeqFitState.allocLoop fuel s s.next_search_block 0 (wordBlockSize content_size)

/-- `AllocatorSeqFit::alloc` (tx_memory.cpp 348-364): calls `allocate`
on an uninitialized local `void * result` and returns `result`,
discarding the status.  When `allocate` fails it never writes
`*content_ptr`, so the caller receives the indeterminate initial value
of `result`, modelled as `none`. -/
def SeqFitState.alloc (s : SeqFitState) (fuel content_size : Nat) : Option (Option Nat × SeqFitState) :=
  match s.allocate fuel content_size with
  | none => none
  | some (_, p, s1) => some (p, s1)

/-- `AllocatorSeqFit::free` (tx_memory.cpp 366-371): `TX_ASSERT` that the
reference count is exactly 1 (halt otherwise, modelled as `none`), then
`fetch_sub(1)`. -/
def SeqFitState.free (s : SeqFitState) (content_ptr : Nat) : Option SeqFitState :=
  let b := wsub32 content_ptr 8
  if s.mem.read (b + 4) = 1 then
    some { s with mem := s.mem.write (b + 4) (wsub32 (s.mem.read (b + 4)) 1) }
  else none

/-- `AllocatorSeqFit::initialize` (tx_memory.cpp 328-346) on a fresh
object. -/
def seqInit (mem : Mem) (addr size : Nat) : Option SeqFitState :=
  if addr % 4 = 0 ∧ size % 4 = 0 ∧ w32 (addr + size) > addr ∧ size ≥ 8 + 4 then
    some { mem := (mem.write (addr + 4) 0).write addr size,
           next_search_block := addr,
           address_start := addr,
           address_end := w32 (addr + size) }
  else none

/-- A LinAllocator pool [0x1000, 0x1020) holding two adjacent free
blocks: one of size 12 at 0x1000 and one of size 20 at 0x100C. -/
def linTwoFreeState : LinState :=
  { mem := (((demoMem.write 4096 LIN_STATE_FREE).write 4100 12).write
      4108 LIN_STATE_FREE).write 4112 20,
    next_search_block := 4096,
    address_start := 4096,
    address_end := 4128 }

/-- An AllocatorSeqFit pool [0x1000, 0x1020) holding two adjacent free
blocks: one of size 12 at 0x1000 and one of size 20 at 0x100C. -/
def seqTwoFreeState : SeqFitState :=
  { mem := (((demoMem.write 4096 12).write 4100 0).write 4108 20).write 4112 0,
    next_search_block := 4096,
    address_start := 4096,
    address_end := 4128 }

/-- C3: in both allocators, the absorption step on a free block of size
12 whose immediate successor is a free block of size 20 reports success
(`true`) but leaves the scanned block's size at 12 and doubles the
*next* block's size to 40 — instead of extending the scanned block to
12 + 20 = 32 as the claim states (`next_block_ptr->size +=
next_block_ptr->size;` adds the next block's size to itself). -/
theorem c3_absorb_doubles_next_size :
    ((linTwoFreeState.absorbNext 4096).1 = true ∧
      (linTwoFreeState.absorbNext 4096).2.mem.read 4100 = 12 ∧
      (linTwoFreeState.absorbNext 4096).2.mem.read 4112 = 40) ∧
    ((seqTwoFreeState.absorbNext 4096).1 = true ∧
      (seqTwoFreeState.absorbNext 4096).2.mem.read 4096 = 12 ∧
      (seqTwoFreeState.absorbNext 4096).2.mem.read 4108 = 40) := by
  exact ⟨⟨rfl, rfl, rfl⟩, ⟨rfl, rfl, rfl⟩⟩

/-! ### Behaviour of LinAllocator from a freshly initialized pool

Because the `break` in `LinAllocatorImpl::allocate` only leaves the
inner absorption loop, the scan can only end in `return 1`.  On a
freshly initialized pool the single free block has no successor to
absorb, so the inner loop body (and with it the fit test) never runs,
the cursor wraps immediately and the call returns OutOfMemory with the
state untouched. -/

theorem lin_fresh_alloc (m : Mem) (addr size n fuel : Nat) (s : LinState)
    (h : linInit m addr size = some s) :
    s.allocate (fuel + 1) n = some (1, none, s) := by
  unfold linInit at h
  split at h
  case isFalse => exact absurd h (by simp)
  case isTrue hg =>
    obtain ⟨h1, h2, h3, h4⟩ := hg
    injection h with h
    subst h
    set s : LinState :=
      { mem := (m.write addr LIN_STATE_FREE).write (addr + 4) size,
        next_search_block := addr, address_start := addr,
        address_end := w32 (addr + size) } with hs
    have e1 : s.mem.read addr = LIN_STATE_FREE := by
      rw [hs]
      show ((m.write addr LIN_STATE_FREE).write (addr + 4) size).read addr = _
      rw [Mem.read_write_ne _ size (by omega), Mem.read_write_same]
    have e2 : s.mem.read (addr + 4) = size := Mem.read_write_same _ _ _
    have habs : s.absorbNext addr = (false, s) := by
      unfold LinState.absorbNext
      rw [e2]
      rw [if_pos rfl]
    have hin : LinState.linInner (fuel + 1) s addr (wordBlockSize n) = some (s, false) := by
      unfold LinState.linInner
      rw [habs]
      rfl
    have hfind : s.findNextBlock addr = addr := by
      unfold LinState.findNextBlock
      rw [e2]
      rw [if_pos rfl]
    have hne : ¬ s.address_start = s.address_end := Nat.ne_of_lt h3
    unfold LinState.allocate
    rw [if_neg hne]
    show LinState.allocLoop (fuel + 1) s addr (wordBlockSize n) = some (1, none, s)
    unfold LinState.allocLoop
    rw [e1, if_pos rfl, hin]
    show (if s.findNextBlock addr ≤ s.next_search_block ∧
        w32 (s.findNextBlock addr + s.mem.read (s.findNextBlock addr + 4)) > s.next_search_block
      then some (1, none, s) else _) = some (1, none, s)
    rw [hfind, e2]
    exact if_pos ⟨Nat.le_refl addr, h3⟩

/-! ### AllocatorSeqFit: a terminating allocation that fails does not
modify any memory.

Key observation: whenever `absorb_next_block_if_possible` succeeds, it
succeeds again on the mutated state (the scanned block's size, the
successor address and the successor's reference count are all untouched
by the doubling write `next->size += next->size`), so the inner `while`
of `allocate` never terminates after a first successful absorption.  A
terminating `allocate` therefore never absorbed anything, and a
terminating *failing* `allocate` performed no write at all. -/

/-- The success condition of `AllocatorSeqFitImpl::absorb_next_block_if_possible`:
the successor address is inside the pool and the successor block is free. -/
def SeqFitState.absorbable (s : SeqFitState) (b : Nat) : Prop :=
  w32 (b + s.mem.read b) ≠ s.address_end ∧
    s.mem.read (w32 (b + s.mem.read b) + 4) = 0

instance (s : SeqFitState) (b : Nat) : Decidable (s.absorbable b) := by
  unfold SeqFitState.absorbable
  exact inferInstance

theorem seq_absorbWrite_mem (s : SeqFitState) (b : Nat) :
    (s.absorbWrite b).mem = s.mem.write (w32 (b + s.mem.read b))
      (w32 (s.mem.read (w32 (b + s.mem.read b)) + s.mem.read (w32 (b + s.mem.read b)))) := rfl

theorem seq_absorbWrite_end (s : SeqFitState) (b : Nat) :
    (s.absorbWrite b).address_end = s.address_end := rfl

theorem seq_absorbNext_pos {s : SeqFitState} {b : Nat} (h : s.absorbable b) :
    s.absorbNext b = (true, s.absorbWrite b) := by
  unfold SeqFitState.absorbNext
  rw [if_neg h.1, if_neg (by have := h.2; omega : ¬ s.mem.read (w32 (b + s.mem.read b) + 4) > 0)]

theorem seq_absorbNext_neg {s : SeqFitState} {b : Nat} (h : ¬ s.absorbable b) :
    s.absorbNext b = (false, s) := by
  unfold SeqFitState.absorbable at h
  push_neg at h
  unfold SeqFitState.absorbNext
  by_cases hend : w32 (b + s.mem.read b) = s.address_end
  · rw [if_pos hend]
  · rw [if_neg hend, if_pos (by have := h hend; omega)]

theorem seq_absorb_keeps_cond {s : SeqFitState} {b : Nat} (hb : b < 4294967296)
    (h : s.absorbable b) : (s.absorbWrite b).absorbable b := by
  obtain ⟨hend, href⟩ := h
  by_cases hbb : w32 (b + s.mem.read b) = b
  · have hszmod : s.mem.read b % 4294967296 = 0 := by
      have hmod : (b + s.mem.read b) % 4294967296 = b := hbb
      omega
    have hread : (s.absorbWrite b).mem.read b = 0 := by
      rw [seq_absorbWrite_mem, hbb, Mem.read_write_same]
      show (s.mem.read b + s.mem.read b) % 4294967296 = 0
      omega
    have hb0 : w32 (b + 0) = b := by
      show (b + 0) % 4294967296 = b
      omega
    constructor
    · show w32 (b + (s.absorbWrite b).mem.read b) ≠ (s.absorbWrite b).address_end
      rw [hread, hb0, seq_absorbWrite_end]
      rw [hbb] at hend
      exact hend
    · show (s.absorbWrite b).mem.read (w32 (b + (s.absorbWrite b).mem.read b) + 4) = 0
      rw [hread, hb0, seq_absorbWrite_mem, hbb]
      rw [Mem.read_write_ne _ _ (by omega : b + 4 ≠ b)]
      rw [hbb] at href
      exact href
  · have hread : (s.absorbWrite b).mem.read b = s.mem.read b := by
      rw [seq_absorbWrite_mem]
      exact Mem.read_write_ne _ _ (fun hc => hbb hc.symm)
    constructor
    · show w32 (b + (s.absorbWrite b).mem.read b) ≠ (s.absorbWrite b).address_end
      rw [hread, seq_absorbWrite_end]
      exact hend
    · show (s.absorbWrite b).mem.read (w32 (b + (s.absorbWrite b).mem.read b) + 4) = 0
      rw [hread, seq_absorbWrite_mem]
      rw [Mem.read_write_ne _ _ (by omega : w32 (b + s.mem.read b) + 4 ≠ w32 (b + s.mem.read b))]
      exact href

theorem seq_absorbLoop_diverges {s : SeqFitState} {b : Nat} (hb : b < 4294967296)
    (h : s.absorbable b) : ∀ fuel, SeqFitState.absorbLoop fuel s b = none := by
  intro fuel
  induction fuel generalizing s with
  | zero => rfl
  | succ fuel ih =>
    unfold SeqFitState.absorbLoop
    rw [seq_absorbNext_pos h]
    exact ih (seq_absorb_keeps_cond hb h)

theorem seq_absorbLoop_some {s s1 : SeqFitState} {b fuel : Nat} (hb : b < 4294967296)
    (h : SeqFitState.absorbLoop fuel s b = some s1) : s1 = s ∧ ¬ s.absorbable b := by
  cases fuel with
  | zero => exact absurd h (by simp [SeqFitState.absorbLoop])
  | succ fuel =>
    by_cases ha : s.absorbable b
    · rw [seq_absorbLoop_diverges hb ha] at h
      exact absurd h (by simp)
    · unfold SeqFitState.absorbLoop at h
      rw [seq_absorbNext_neg ha] at h
      exact ⟨(Option.some_inj.mp h).symm, ha⟩

theorem seq_allocLoop_fail (fuel : Nat) :
    ∀ (s s1 : SeqFitState) (search dist bs st : Nat) (p : Option Nat),
      search < 4294967296 → s.address_start < 4294967296 →
      SeqFitState.allocLoop fuel s search dist bs = some (st, p, s1) → st = 1 →
      p = none ∧ s1 = s := by
  induction fuel with
  | zero =>
    intro s s1 search dist bs st p _ _ h _
    exact absurd h (by simp [SeqFitState.allocLoop])
  | succ fuel ih =>
    intro s s1 search dist bs st p hsearch hstart h hst
    have hnext : ∀ s2 : SeqFitState, s2.address_start < 4294967296 →
        s2.findNextBlock search < 4294967296 := by
      intro s2 hst2
      show (if w32 (search + s2.mem.read search) = s2.address_end then s2.address_start
        else w32 (search + s2.mem.read search)) < 4294967296
      by_cases hc : w32 (search + s2.mem.read search) = s2.address_end
      · rw [if_pos hc]
        exact hst2
      · rw [if_neg hc]
        exact Nat.mod_lt _ (by omega)
    unfold SeqFitState.allocLoop at h
    by_cases hfree : s.mem.read (search + 4) = 0
    · rw [if_pos hfree] at h
      cases habs : SeqFitState.absorbLoop (fuel + 1) s search with
      | none =>
        rw [habs] at h
        exact absurd h (by simp)
      | some s2 =>
        obtain ⟨hs2, _⟩ := seq_absorbLoop_some hsearch habs
        subst hs2
        rw [habs] at h
        dsimp only at h
        by_cases hge : s2.mem.read search ≥ bs
        · rw [if_pos hge] at h
          injection h with h
          injection h with h1 h2
          omega
        · rw [if_neg hge] at h
          by_cases hdist : w32 (dist + s2.mem.read search) ≥ wsub32 s2.address_end s2.address_start
          · rw [if_pos hdist] at h
            injection h with h
            injection h with h1 h2
            injection h2 with h2 h3
            exact ⟨h2.symm, h3.symm⟩
          · rw [if_neg hdist] at h
            exact ih s2 s1 _ _ bs st p (hnext s2 hstart) hstart h hst
    · rw [if_neg hfree] at h
      dsimp only at h
      by_cases hdist : w32 (dist + s.mem.read search) ≥ wsub32 s.address_end s.address_start
      · rw [if_pos hdist] at h
        injection h with h
        injection h with h1 h2
        injection h2 with h2 h3
        exact ⟨h2.symm, h3.symm⟩
      · rw [if_neg hdist] at h
        exact ih s s1 _ _ bs st p (hnext s hstart) hstart h hst

/-- A failing, terminating `AllocatorSeqFitImpl::allocate` never writes
the content pointer and returns the state it started from. -/
theorem seq_allocate_fail {s s1 : SeqFitState} {fuel n st : Nat} {p : Option Nat}
    (hcur : s.next_search_block < 4294967296) (hstart : s.address_start < 4294967296)
    (h : s.allocate fuel n = some (st, p, s1)) (hst : st = 1) :
    p = none ∧ s1 = s := by
  unfold SeqFitState.allocate at h
  by_cases hinit : s.address_start = s.address_end
  · rw [if_pos hinit] at h
    exact absurd h (by simp)
  · rw [if_neg hinit] at h
    exact seq_allocLoop_fail fuel s s1 _ _ _ st p hcur hstart h hst

/-! ### AllocatorHalfFit (tx_memory_halffit.cpp)

Block layout (`sizeof(size_t) = sizeof(void *) = 4`): `size` at offset
0, `ref_count` at offset 4, `prev_free_block` at offset 8,
`next_free_block` at offset 12, duplicated `size` footer at
`address + size - 4`.  `BLOCKUSED_INFO_SIZE = 12`, `MIN_ALLOC_SIZE = 32`
(`MIN_ALLOC_SIZE_LOG2 = 5`), `BLOCK_ALIGNMENT = 8`.  The free-list head
array (`MemBlock **`) lives at the start of the caller's region, below
`address_start`; null pointers are the address 0.  A failing `TX_ASSERT`
halts; it is modelled by `Except.error` carrying the state at the halt
(every assert in this translation fires before any write of the
surrounding operation, except where noted). -/

/-- The members of an `AllocatorHalfFit` object together with the
managed memory.  `free_block_list` is the base address of the head
array; its `i`-th slot is the word at `free_block_list + 4 * i`. -/
structure HFState where
  mem : Mem
  free_block_list : Nat
  free_block_list_size : Nat
  address_start : Nat
  address_end : Nat

/-- The free-list head of order `i` (the word stored in the `i`-th slot
of the head array). -/
def HFState.slot (s : HFState) (i : Nat) : Nat :=
  s.mem.read (s.free_block_list + 4 * i)

/-- Fuel-indexed floor of the base-2 logarithm (0 at 0 and 1), written
with structural recursion so that concrete evaluation reduces. -/
def log2fuel : Nat → Nat → Nat
  | 0, _ => 0
  | fuel + 1, n => if n ≤ 1 then 0 else log2fuel fuel (n / 2) + 1

/-- Floor of the base-2 logarithm for every value a `size_t` can hold
(40 halvings are enough below `2^40`). -/
def floorLog2 (n : Nat) : Nat := log2fuel 40 n

/-- `AllocatorHalfFitImpl::get_order_from_size` (tx_memory_halffit.cpp
89-93): `8u * sizeof(size_t) - 1 - __builtin_clz(size) - MIN_ALLOC_SIZE_LOG2`
in `size_t` arithmetic.  For `1 ≤ size < 2^32`,
`31 - __builtin_clz(size)` is the floor of the base-2 logarithm, so the
expression is `floorLog2 size - 5` computed with 32-bit wraparound.
(`__builtin_clz(0)` is undefined; the embedding extends it through
`floorLog2 0 = 0`.) -/
def getOrderFromSize (size : Nat) : Nat :=
  (floorLog2 size + 4294967291) % 4294967296

/-- `AllocatorHalfFitImpl::next_aligned_address` (tx_memory_halffit.cpp
70-74), round up to the 8-byte block alignment.  Its
`TX_ASSERT(size > 0)` is handled at the call sites (every caller below
passes a positive argument or checks first). -/
def nextAlignedAddress (x : Nat) : Nat :=
  w32 ((((wsub32 x 1) >>> 3) + 1) <<< 3)

/-- `AllocatorHalfFitImpl::register_free_block` (tx_memory_halffit.cpp
114-128): push `b` on the head of the free list of its order.  When the
old head is non-null its `prev_free_block` must be null
(`TX_ASSERT`, halt otherwise). -/
def HFState.registerFreeBlock (s : HFState) (b : Nat) : Except HFState HFState :=
  let order := getOrderFromSize (s.mem.read b)
  let head := s.slot order
  if head ≠ 0 then
    if s.mem.read (head + 8) = 0 then
      let m1 := s.mem.write (head + 8) b
      let m2 := m1.write (b + 8) 0
      let m3 := m2.write (b + 12) head
      let m4 := m3.write (s.free_block_list + 4 * order) b
      .ok { s with mem := m4 }
    else .error s
  else
    let m2 := s.mem.write (b + 8) 0
    let m3 := m2.write (b + 12) head
    let m4 := m3.write (s.free_block_list + 4 * order) b
    .ok { s with mem := m4 }

/-- `AllocatorHalfFitImpl::unregister_free_block` (tx_memory_halffit.cpp
130-149): unlink `b` from its doubly linked free list (no asserts). -/
def HFState.unregisterFreeBlock (s : HFState) (b : Nat) : HFState :=
  let p := s.mem.read (b + 8)
  let n := s.mem.read (b + 12)
  let s1 :=
    if p ≠ 0 then { s with mem := s.mem.write (p + 12) n }
    else { s with mem := s.mem.write (s.free_block_list + 4 * getOrderFromSize (s.mem.read b)) n }
  if n ≠ 0 then { s1 with mem := s1.mem.write (n + 8) p }
  else s1

/-- Size adjustment of `AllocatorHalfFitImpl::allocate` (tx_memory_halffit.cpp
153-156): add `BLOCKUSED_INFO_SIZE = 12`, raise to `MIN_ALLOC_SIZE = 32`,
round up to the 8-byte alignment. -/
def hfAdjustSize (content_size : Nat) : Nat :=
  let sz := w32 (content_size + 12)
  let sz := if sz < 32 then 32 else sz
  nextAlignedAddress sz

/-- The free-list scan of `AllocatorHalfFitImpl::allocate`
(tx_memory_halffit.cpp 161-168): advance `index` while the slot is
null; `TX_ASSERT(0)` — a halt, the OutOfMemory outcome, `some none`
here — once `index` reaches the number of lists.  `none` means the fuel
ran out (callers pass enough fuel for this never to happen). -/
def HFState.scanSlots : Nat → HFState → Nat → Option (Option Nat)
  | 0, _, _ => none
  | fuel + 1, s, index =>
    if s.slot index = 0 then
      if index + 1 ≥ s.free_block_list_size then some none
      else HFState.scanSlots fuel s (index + 1)
    else some (some index)

/-- The split step of `AllocatorHalfFitImpl::allocate`
(tx_memory_halffit.cpp 174-184): when the chosen block can donate a
remainder of at least `MIN_ALLOC_SIZE`, carve the remainder block, give
it header, footer and `ref_count = 0`, register it, then shrink the
chosen block (header and footer). -/
def HFState.allocSplit (s1 : HFState) (b size : Nat) : Except HFState HFState :=
  if s1.mem.read b ≥ w32 (size + 32) then
    let nb := w32 (b + size)
    let m1 := s1.mem.write nb (wsub32 (s1.mem.read b) size)
    let m2 := m1.write (wsub32 (w32 (nb + m1.read nb)) 4) (m1.read nb)
    let m3 := m2.write (nb + 4) 0
    match HFState.registerFreeBlock { s1 with mem := m3 } nb with
    | .error e => .error e
    | .ok s2 =>
      let m4 := s2.mem.write b size
      let m5 := m4.write (wsub32 (w32 (b + m4.read b)) 4) size
      .ok { s2 with mem := m5 }
  else .ok s1

/-- `AllocatorHalfFitImpl::allocate` (tx_memory_halffit.cpp 151-188):
adjust the size, take the first non-empty free list strictly above the
target order (`TX_ASSERT(index < free_block_list_size)` first, then the
scan — both halts are the OutOfMemory outcome), unlink its head, split
if possible, mark the block used and hand out `&block->prev_free_block`
(= block + 8). -/
def HFState.allocate (s : HFState) (content_size : Nat) : Except HFState (HFState × Nat) :=
  if getOrderFromSize (hfAdjustSize content_size) + 1 < s.free_block_list_size then
    match HFState.scanSlots s.free_block_list_size s
        (getOrderFromSize (hfAdjustSize content_size) + 1) with
    | none => .error s
    | some none => .error s
    | some (some idx) =>
      match (s.unregisterFreeBlock (s.slot idx)).allocSplit (s.slot idx)
          (hfAdjustSize content_size) with
      | .error e => .error e
      | .ok s2 =>
        .ok ({ s2 with mem := s2.mem.write (s.slot idx + 4) 1 }, s.slot idx + 8)
  else .error s

/-- `AllocatorHalfFitImpl::free` (tx_memory_halffit.cpp 190-225): recover
the block from the content pointer (offset of `prev_free_block` is 8),
check the boundary tag and the occupancy (`TX_ASSERT`s — both run before
any write), absorb a free successor, absorb a free predecessor (found
through the footer of the block just below), then write the merged
header, footer and `ref_count = 0` and register the block under its
recomputed order. -/
def HFState.free (s : HFState) (content_ptr : Nat) : Except HFState HFState :=
  let b := wsub32 content_ptr 8
  if s.mem.read b = s.mem.read (wsub32 (w32 (b + s.mem.read b)) 4) ∧
      s.mem.read (b + 4) > 0 then
    let block_size0 := s.mem.read b
    let next := w32 (b + block_size0)
    let step1 : HFState × Nat :=
      if next ≠ s.address_end then
        if s.mem.read (next + 4) = 0 then
          let s1 := s.unregisterFreeBlock next
          (s1, w32 (block_size0 + s1.mem.read next))
        else (s, block_size0)
      else (s, block_size0)
    let s1 := step1.1
    let bs1 := step1.2
    let step2 : HFState × Nat × Nat :=
      if b ≠ s1.address_start then
        let prev := wsub32 b (s1.mem.read (wsub32 b 4))
        if s1.mem.read (prev + 4) = 0 then
          let s2 := s1.unregisterFreeBlock prev
          (s2, w32 (bs1 + s2.mem.read prev), prev)
        else (s1, bs1, b)
      else (s1, bs1, b)
    let s2 := step2.1
    let bs2 := step2.2.1
    let b2 := step2.2.2
    let m1 := s2.mem.write b2 bs2
    let m2 := m1.write (wsub32 (w32 (b2 + m1.read b2)) 4) bs2
    let m3 := m2.write (b2 + 4) 0
    HFState.registerFreeBlock { s2 with mem := m3 } b2
  else .error s

/-- The slot-clearing loop of
`AllocatorHalfFitImpl::initialize_management_data` (tx_memory_halffit.cpp
102-105): null the first `k` heads. -/
def hfClearSlots (m : Mem) (base : Nat) : Nat → Mem
  | 0 => m
  | k + 1 => (hfClearSlots m base k).write (base + 4 * k) 0

/-- `AllocatorHalfFitImpl::initialize_management_data`
(tx_memory_halffit.cpp 100-112): clear every head, make the whole pool a
single free block (header, footer, `ref_count = 0`) and register it.
The clearing loop counter is a `uint8_t`, so a list count of 256 or
more never terminates (`none`); a halt inside `register_free_block`
is also `none`. -/
def hfInitMgmt (s : HFState) : Option HFState :=
  if s.free_block_list_size ≥ 256 then none
  else
    let m0 := hfClearSlots s.mem s.free_block_list s.free_block_list_size
    let m1 := m0.write s.address_start (wsub32 s.address_end s.address_start)
    let m2 := m1.write (wsub32 (w32 (s.address_start + m1.read s.address_start)) 4)
      (m1.read s.address_start)
    let m3 := m2.write (s.address_start + 4) 0
    match HFState.registerFreeBlock { s with mem := m3 } s.address_start with
    | .error _ => none
    | .ok s1 => some s1

/-- `AllocatorHalfFit::initialize` (tx_memory_halffit.cpp 292-309),
called on an object whose members `address_start` / `address_end` hold
`old_address_start` / `old_address_end` (both 0 for a fresh object).
The alignment assert at line 295 reads the *member* `address_start` —
not the `mem_ptr` argument — so on a fresh object it compares `0 & 7`
with 0 and always passes.  `none` models a halted `TX_ASSERT` (or a
non-terminating clearing loop). -/
def hfInit (mem : Mem) (old_address_start old_address_end mem_ptr size : Nat) : Option HFState :=
  if old_address_start = old_address_end ∧ old_address_start % 8 = 0 ∧ size % 8 = 0 then
    let list_size := w32 (1 + getOrderFromSize (wsub32 size 1))
    let start0 := w32 (mem_ptr + w32 (list_size * 4))
    if start0 = 0 then none
    else
      let start1 := nextAlignedAddress start0
      let endaddr := w32 (mem_ptr + size)
      if endaddr > start1 ∧ start1 > mem_ptr then
        let st : HFState :=
          { mem := mem, free_block_list := mem_ptr, free_block_list_size := list_size,
            address_start := start1, address_end := endaddr }
        hfInitMgmt st
      else none
  else none

set_option maxRecDepth 10000 in
/-- C8: `AllocatorHalfFit::initialize` accepts a *misaligned* region
pointer.  Called on a fresh object with region 0x1001 (not even
word-aligned, let alone 8-byte aligned) and size 64, it completes and
initializes the pool instead of halting: the alignment assert at
tx_memory_halffit.cpp:295 tests the still-zero member `address_start`
rather than `mem_ptr`. -/
theorem c8_misaligned_region_accepted :
    (hfInit demoMem 0 0 4097 64).isSome = true ∧ 4097 % 8 = 1 := by
  constructor
  · rfl
  · rfl

/-! ### AutoLinAlloc (tx_automemory.cpp / tx_automemory.hpp)

`AutoLinAlloc::MemBlock` is *not* packed: `size_t size; std::atomic<size_t>
ref_count; char content;` has `sizeof = 12` (offsets 0, 4, 8, 3 bytes of
tail padding), so `BLOCK_INFO_SIZE = sizeof(MemBlock) - sizeof(char) = 11`
while the content the allocator hands out lives at offset 8.  The
handle operations recover the block as `mem_ptr - 11`, three bytes below
the real header, so their word accesses overlap the header fields.
Memory is therefore modelled byte by byte, little-endian (the targeted
Cortex-M cores are little-endian).  Atomics are plain accesses: every
trace considered is single-context. -/

/-- Byte-granular memory: each key is a byte address. -/
def Mem8 : Type := Nat → Nat

/-- Read the byte at `a`. -/
def Mem8.readB (m : Mem8) (a : Nat) : Nat := m a % 256

/-- Store byte `v` (reduced mod 256) at `a`. -/
def Mem8.writeB (m : Mem8) (a v : Nat) : Mem8 := Function.update m a (v % 256)

/-- Little-endian 4-byte load at `a`. -/
def Mem8.readW (m : Mem8) (a : Nat) : Nat :=
  m.readB a + 256 * m.readB (a + 1) + 65536 * m.readB (a + 2) + 16777216 * m.readB (a + 3)

/-- Little-endian 4-byte store of `v` at `a`. -/
def Mem8.writeW (m : Mem8) (a v : Nat) : Mem8 :=
  (((m.writeB a v).writeB (a + 1) (v / 256)).writeB (a + 2) (v / 65536)).writeB
    (a + 3) (v / 16777216)

theorem Mem8.readB_writeB_same (m : Mem8) (a v : Nat) :
    (m.writeB a v).readB a = v % 256 := by
  unfold Mem8.readB Mem8.writeB
  rw [Function.update_same]
  omega

theorem Mem8.readB_writeB_ne (m : Mem8) {a b : Nat} (v : Nat) (h : b ≠ a) :
    (m.writeB a v).readB b = m.readB b := by
  simp [Mem8.readB, Mem8.writeB, Function.update, h]

theorem Mem8.readW_writeW_same (m : Mem8) (a v : Nat) :
    (m.writeW a v).readW a = v % 4294967296 := by
  unfold Mem8.readW Mem8.writeW
  rw [Mem8.readB_writeB_ne _ _ (by omega), Mem8.readB_writeB_ne _ _ (by omega),
    Mem8.readB_writeB_ne _ _ (by omega), Mem8.readB_writeB_same,
    Mem8.readB_writeB_ne _ _ (by omega), Mem8.readB_writeB_ne _ _ (by omega),
    Mem8.readB_writeB_same, Mem8.readB_writeB_ne _ _ (by omega),
    Mem8.readB_writeB_same, Mem8.readB_writeB_same]
  omega

theorem Mem8.readW_writeW_ne (m : Mem8) {a b : Nat} (v : Nat)
    (h : b + 4 ≤ a ∨ a + 4 ≤ b) : (m.writeW a v).readW b = m.readW b := by
  unfold Mem8.readW Mem8.writeW
  rw [Mem8.readB_writeB_ne _ _ (by omega), Mem8.readB_writeB_ne _ _ (by omega),
    Mem8.readB_writeB_ne _ _ (by omega), Mem8.readB_writeB_ne _ _ (by omega),
    Mem8.readB_writeB_ne _ _ (by omega), Mem8.readB_writeB_ne _ _ (by omega),
    Mem8.readB_writeB_ne _ _ (by omega), Mem8.readB_writeB_ne _ _ (by omega),
    Mem8.readB_writeB_ne _ _ (by omega), Mem8.readB_writeB_ne _ _ (by omega),
    Mem8.readB_writeB_ne _ _ (by omega), Mem8.readB_writeB_ne _ _ (by omega),
    Mem8.readB_writeB_ne _ _ (by omega), Mem8.readB_writeB_ne _ _ (by omega),
    Mem8.readB_writeB_ne _ _ (by omega), Mem8.readB_writeB_ne _ _ (by omega)]

theorem Mem8.writeW_writeW_same (m : Mem8) (a v w : Nat) :
    (m.writeW a v).writeW a w = m.writeW a w := by
  funext x
  unfold Mem8.writeW Mem8.writeB
  simp only [Function.update_apply]
  split_ifs <;> rfl

/-- The members of an `AutoLinAlloc` object together with the managed
memory.  A `SharedPtr` handle is its `mem_ptr` value (0 = nullptr). -/
structure AutoState where
  mem : Mem8
  next_search_block : Nat
  address_start : Nat
  address_end : Nat

/-- `AutoLinAllocImpl::find_next_block` (tx_automemory.cpp 55-63). -/
def AutoState.findNextBlock (s : AutoState) (b : Nat) : Nat :=
  let next := w32 (b + s.mem.readW b)
  if next = s.address_end then s.address_start else next

/-- The loop of `AutoLinAllocImpl::get_contiguous_free_size`
(tx_automemory.cpp 65-81): extend `end_address` over consecutive blocks
with `ref_count = 0` until the pool end or an occupied block.  `none`
when the fuel runs out. -/
def AutoState.contiguousEnd : Nat → AutoState → Nat → Option Nat
  | 0, _, _ => none
  | fuel + 1, s, endAddr =>
    if endAddr = s.address_end then some endAddr
    else if s.mem.readW (endAddr + 4) = 0 then
      AutoState.contiguousEnd fuel s (w32 (endAddr + s.mem.readW endAddr))
    else some endAddr

/-- `AutoLinAllocImpl::split_block_if_possible` (tx_automemory.cpp 84-93);
note the 11-byte `BLOCK_INFO_SIZE`. -/
def AutoState.splitBlock (s : AutoState) (b first_block_size : Nat) : AutoState :=
  if s.mem.readW b ≥ w32 (first_block_size + 11 + 4) then
    let nb := w32 (b + first_block_size)
    let m1 := s.mem.writeW nb (wsub32 (s.mem.readW b) first_block_size)
    let m2 := m1.writeW (nb + 4) 0
    let m3 := m2.writeW b first_block_size
    { s with mem := m3 }
  else s

/-- The `while (1)` scan of `AutoLinAllocImpl::allocate` (tx_automemory.cpp
110-129) with its success epilogue (lines 131-136): on a free block,
store the contiguous free size into the block's header, test the fit,
split, mark used (`ref_count = 1`), hand out `&search_block->content`
(= block + 8) and move the cursor; otherwise advance and return 1 once
the successor wraps over the remembered cursor. -/
def AutoState.allocLoop : Nat → AutoState → Nat → Nat → Option (Nat × Option Nat × AutoState)
  | 0, _, _, _ => none
  | fuel + 1, s, search, block_size =>
    if s.mem.readW (search + 4) = 0 then
      match AutoState.contiguousEnd (fuel + 1) s search with
      | none => none
      | some e =>
        let s1 : AutoState := { s with mem := s.mem.writeW search (wsub32 e search) }
        if s1.mem.readW search ≥ block_size then
          let s2 := s1.splitBlock search block_size
          let m := s2.mem.writeW (search + 4) 1
          some (0, some (search + 8), { s2 with mem := m, next_search_block := search })
        else
          let search1 := s1.findNextBlock search
          if search1 ≤ s1.next_search_block ∧
              w32 (search1 + s1.mem.readW search1) > s1.next_search_block then
            some (1, none, s1)
          else AutoState.allocLoop fuel s1 search1 block_size
    else
      let search1 := s.findNextBlock search
      if search1 ≤ s.next_search_block ∧
          w32 (search1 + s.mem.readW search1) > s.next_search_block then
        some (1, none, s)
      else AutoState.allocLoop fuel s search1 block_size

/-- The word-rounding step shared by all the linear allocators
(`content_size` raised to 4 and rounded up to a word multiple). -/
def wordRound (content_size : Nat) : Nat :=
  let cs := if content_size < 4 then 4 else content_size
  w32 ((((wsub32 cs 1) >>> 2) + 1) <<< 2)

/-- The adjusted block size of `AutoLinAllocImpl::allocate`
(tx_automemory.cpp 101-107): rounded content size plus the 11-byte
`BLOCK_INFO_SIZE`. -/
def autoBlockSize (content_size : Nat) : Nat :=
  w32 (wordRound content_size + 11)

/-- `AutoLinAllocImpl::allocate` (tx_automemory.cpp 96-137). -/
def AutoState.allocate (s : AutoState) (fuel content_size : Nat) : Option (Nat × Option Nat × AutoState) :=
  if s.address_start = s.address_end then none
  else AutoState.allocLoop fuel s s.next_search_block (autoBlockSize content_size)

/-- `AutoLinAlloc::alloc` (tx_automemory.cpp 207-225): a
default-constructed `SharedPtr result` (null) is passed by address to
`allocate`, which writes it only on success, and is then returned —
status discarded.  The CAS spin on `allocation_lock` is omitted: the
model is single-context.  The handle is the held address, 0 = null. -/
def AutoState.alloc (s : AutoState) (fuel content_size : Nat) : Option (Nat × AutoState) :=
  match s.allocate fuel content_size with
  | none => none
  | some (_, p, s1) => some (p.getD 0, s1)

/-- `AutoLinAlloc::SharedPtr::is_allocated` (tx_automemory.hpp 74). -/
def SharedPtr.isAllocated (ptr : Nat) : Bool := ptr ≠ 0

/-- `AutoLinAlloc::SharedPtr::get_ptr` (tx_automemory.hpp 75). -/
def SharedPtr.getPtr (ptr : Nat) : Nat := ptr

/-- `AutoLinAlloc::SharedPtr::get_size` (tx_automemory.cpp 154-165):
0 for a null handle, otherwise the size field of the "block" at
`mem_ptr - 11` minus 11. -/
def SharedPtr.getSize (s : AutoState) (ptr : Nat) : Nat :=
  if ptr = 0 then 0 else wsub32 (s.mem.readW (wsub32 ptr 11)) 11

/-- `AutoLinAlloc::SharedPtr::get_ref_count` (tx_automemory.cpp 167-178):
0 for a null handle, otherwise the ref-count field of the "block" at
`mem_ptr - 11`. -/
def SharedPtr.getRefCount (s : AutoState) (ptr : Nat) : Nat :=
  if ptr = 0 then 0 else s.mem.readW (wsub32 ptr 11 + 4)

/-- `AutoLinAlloc::SharedPtr::decrease_ref_count` (tx_automemory.cpp
147-152): `fetch_sub(1)` on the ref-count word of the "block" at
`mem_ptr - 11` — that word sits at `mem_ptr - 7`, three bytes below the
real `ref_count` field at `mem_ptr - 4`. -/
def SharedPtr.decRefCount (s : AutoState) (ptr : Nat) : AutoState :=
  let a := wsub32 ptr 11 + 4
  let m1 := s.mem.writeW a (wsub32 (s.mem.readW a) 1)
  { s with mem := m1 }

/-- `AutoLinAlloc::SharedPtr::~SharedPtr` (tx_automemory.hpp 49-52):
decrement if the handle is non-null. -/
def SharedPtr.drop (s : AutoState) (ptr : Nat) : AutoState :=
  if ptr = 0 then s else SharedPtr.decRefCount s ptr

/-- `AutoLinAlloc::initialize` (tx_automemory.cpp 186-205) on a fresh
object. -/
def autoInit (mem : Mem8) (addr size : Nat) : Option AutoState :=
  if addr % 4 = 0 ∧ size % 4 = 0 ∧ w32 (addr + size) > addr ∧ size ≥ 11 + 4 then
    some { mem := (mem.writeW (addr + 4) 0).writeW addr size,
           next_search_block := addr,
           address_start := addr,
           address_end := w32 (addr + size) }
  else none

/-- The partition traversal of the claim: walk blocks by
`address + size` from `address_start`; `true` iff the walk lands exactly
on `address_end` (every byte covered once, sizes summing to the pool
size).  A zero size field (walk stuck) and overshooting the end both
fail. -/
def autoWalkOk : Nat → AutoState → Nat → Bool
  | 0, _, _ => false
  | fuel + 1, s, a =>
    if a = s.address_end then true
    else if a > s.address_end then false
    else if s.mem.readW a = 0 then false
    else autoWalkOk fuel s (a + s.mem.readW a)

/-- Partition invariant checker for an `AutoLinAlloc` pool. -/
def AutoState.partitionOk (s : AutoState) (fuel : Nat) : Bool :=
  autoWalkOk fuel s s.address_start

/-- An arbitrary content of the backing region before initialization. -/
def demoMem8 : Mem8 := fun _ => 0

/-! ### HalfFit: the OutOfMemory path halts with the state unchanged -/

theorem hf_scanSlots_empty (s : HFState) :
    ∀ fuel index, index < s.free_block_list_size →
      (∀ j, index ≤ j → j < s.free_block_list_size → s.slot j = 0) →
      s.free_block_list_size - index ≤ fuel →
      HFState.scanSlots fuel s index = some none := by
  intro fuel
  induction fuel with
  | zero =>
    intro index h1 _ h3
    omega
  | succ fuel ih =>
    intro index h1 h2 h3
    unfold HFState.scanSlots
    rw [if_pos (h2 index (Nat.le_refl _) h1)]
    by_cases hend : index + 1 ≥ s.free_block_list_size
    · rw [if_pos hend]
    · rw [if_neg hend]
      exact ih (index + 1) (by omega) (fun j hj1 hj2 => h2 j (by omega) hj2) (by omega)

/-- When every free list of order strictly above the target order is
empty, `AllocatorHalfFitImpl::allocate` reaches `TX_ASSERT(0)` (or fails
the `index < free_block_list_size` assert) and halts with the whole
state unchanged: the scan only reads the head array. -/
theorem hf_allocate_oom (s : HFState) (n : Nat)
    (h : ∀ j, getOrderFromSize (hfAdjustSize n) + 1 ≤ j →
      j < s.free_block_list_size → s.slot j = 0) :
    s.allocate n = .error s := by
  unfold HFState.allocate
  by_cases hidx : getOrderFromSize (hfAdjustSize n) + 1 < s.free_block_list_size
  · rw [if_pos hidx]
    rw [hf_scanSlots_empty s s.free_block_list_size _ hidx h (by omega)]
  · rw [if_neg hidx]

/-! ### AutoLinAlloc: a failing allocation returns with the null handle -/

theorem auto_allocLoop_status1 (fuel : Nat) :
    ∀ (s s1 : AutoState) (search bs st : Nat) (p : Option Nat),
      AutoState.allocLoop fuel s search bs = some (st, p, s1) → st = 1 → p = none := by
  induction fuel with
  | zero =>
    intro s s1 search bs st p h _
    exact absurd h (by simp [AutoState.allocLoop])
  | succ fuel ih =>
    intro s s1 search bs st p h hst
    unfold AutoState.allocLoop at h
    by_cases hfree : s.mem.readW (search + 4) = 0
    · rw [if_pos hfree] at h
      cases hce : AutoState.contiguousEnd (fuel + 1) s search with
      | none =>
        rw [hce] at h
        exact absurd h (by simp)
      | some e =>
        rw [hce] at h
        dsimp only at h
        by_cases hge : ({ s with mem := s.mem.writeW search (wsub32 e search) } :
            AutoState).mem.readW search ≥ bs
        · rw [if_pos hge] at h
          injection h with h
          injection h with h1 h2
          omega
        · rw [if_neg hge] at h
          split at h
          · injection h with h
            injection h with h1 h2
            injection h2 with h2 h3
            exact h2.symm
          · exact ih _ s1 _ bs st p h hst
    · rw [if_neg hfree] at h
      dsimp only at h
      split at h
      · injection h with h
        injection h with h1 h2
        injection h2 with h2 h3
        exact h2.symm
      · exact ih _ s1 _ bs st p h hst

/-- On a freshly initialized pool (one free block spanning the region)
an `AutoLinAllocImpl::allocate` whose adjusted block size exceeds the
pool returns status 1 with the state unchanged: the only write on the
way — `search_block->size = get_contiguous_free_size(...)` — stores the
value the field already holds. -/
theorem auto_fresh_alloc_fail (m : Mem8) (addr size n fuel : Nat) (s : AutoState)
    (h : autoInit m addr size = some s) (haddr : addr < 4294967296)
    (hsize : size < 4294967296) (hbs : size < autoBlockSize n) :
    s.allocate (fuel + 2) n = some (1, none, s) := by
  unfold autoInit at h
  split at h
  case isFalse => exact absurd h (by simp)
  case isTrue hg =>
    obtain ⟨h1, h2, h3, h4⟩ := hg
    injection h with h
    subst h
    set s : AutoState :=
      { mem := (m.writeW (addr + 4) 0).writeW addr size,
        next_search_block := addr, address_start := addr,
        address_end := w32 (addr + size) } with hs
    have hab : addr + size < 4294967296 := by
      by_contra hc
      push_neg at hc
      have hw : w32 (addr + size) = addr + size - 4294967296 := by
        unfold w32
        omega
      rw [hw] at h3
      omega
    have hend : w32 (addr + size) = addr + size := w32_eq_of_lt hab
    have hsmem : s.mem = (m.writeW (addr + 4) 0).writeW addr size := rfl
    have hsstart : s.address_start = addr := rfl
    have hscur : s.next_search_block = addr := rfl
    have e1 : s.mem.readW addr = size := by
      rw [hsmem, Mem8.readW_writeW_same]
      exact Nat.mod_eq_of_lt hsize
    have e0 : s.mem.readW (addr + 4) = 0 := by
      rw [hsmem, Mem8.readW_writeW_ne _ _ (Or.inr (by omega))]
      rw [Mem8.readW_writeW_same]
    have hce : AutoState.contiguousEnd (fuel + 2) s addr = some (w32 (addr + size)) := by
      show AutoState.contiguousEnd (fuel + 1 + 1) s addr = some (w32 (addr + size))
      unfold AutoState.contiguousEnd
      rw [show s.address_end = w32 (addr + size) from rfl]
      rw [if_neg (by rw [hend]; omega : ¬ addr = w32 (addr + size))]
      rw [e0, if_pos rfl, e1]
      cases fuel with
      | zero =>
        unfold AutoState.contiguousEnd
        rw [show s.address_end = w32 (addr + size) from rfl, if_pos rfl]
      | succ fuel =>
        unfold AutoState.contiguousEnd
        rw [show s.address_end = w32 (addr + size) from rfl, if_pos rfl]
    have hwv : wsub32 (w32 (addr + size)) addr = size := by
      rw [hend]
      rw [wsub32_eq_sub (by omega) hab]
      omega
    have hseq : ({ s with mem := s.mem.writeW addr (wsub32 (w32 (addr + size)) addr) } :
        AutoState) = s := by
      rw [hwv]
      show ({ s with mem := s.mem.writeW addr size } : AutoState) = s
      have hmm : s.mem.writeW addr size = s.mem := by
        rw [hsmem, Mem8.writeW_writeW_same]
      rw [hmm]
    have hne : ¬ s.address_start = s.address_end := by
      rw [hsstart, show s.address_end = w32 (addr + size) from rfl, hend]
      omega
    unfold AutoState.allocate
    rw [if_neg hne, hscur]
    show AutoState.allocLoop (fuel + 1 + 1) s addr (autoBlockSize n) = some (1, none, s)
    unfold AutoState.allocLoop
    rw [e0, if_pos rfl]
    rw [show AutoState.contiguousEnd (fuel + 1 + 1) s addr = some (w32 (addr + size)) from hce]
    dsimp only
    rw [hseq]
    have e2 : (((m.writeW (addr + 4) 0).writeW addr size).writeW addr
        (wsub32 (w32 (addr + size)) addr)).readW addr = size := by
      rw [hwv, Mem8.writeW_writeW_same, Mem8.readW_writeW_same]
      exact Nat.mod_eq_of_lt hsize
    rw [e2, if_neg (by omega : ¬ size ≥ autoBlockSize n)]
    have hfind : s.findNextBlock addr = addr := by
      unfold AutoState.findNextBlock
      rw [e1]
      rw [show s.address_end = w32 (addr + size) from rfl]
      rw [if_pos rfl]
    rw [hfind, e2]
    rw [if_pos ⟨Nat.le_refl addr, h3⟩]

/-! ### Concrete demonstration states -/

/-- LinAllocator pool: 512 bytes at 0x1000. -/
def linDemo512 : LinState := (linInit demoMem 4096 512).getD ⟨demoMem, 0, 0, 0⟩

/-- AllocatorSeqFit pool: 32 bytes at 0x1000. -/
def seqDemo32 : SeqFitState := (seqInit demoMem 4096 32).getD ⟨demoMem, 0, 0, 0⟩

/-- AllocatorHalfFit pool: 64 bytes at 0x1000 (one free list). -/
def hfDemo64 : HFState := (hfInit demoMem 0 0 4096 64).getD ⟨demoMem, 0, 0, 0, 0⟩

/-- AutoLinAlloc pool: 16 bytes at 0x1000. -/
def autoDemo16 : AutoState := (autoInit demoMem8 4096 16).getD ⟨demoMem8, 0, 0, 0⟩

/-- AutoLinAlloc pool: 32 bytes at 0x1000. -/
def autoDemo32 : AutoState := (autoInit demoMem8 4096 32).getD ⟨demoMem8, 0, 0, 0⟩

/-- `autoDemo32` after `alloc(1)` (returns the handle 0x1008): a used
block of 15 bytes at 0x1000 and a free block of 17 bytes at 0x100F. -/
def autoDemo32a : AutoState := ((autoDemo32.alloc 20 1).getD (0, autoDemo32)).2

/-- `autoDemo32a` after dropping the handle 0x1008: the release
decrements the word at `0x1008 - 11 + 4 = 0x1001`, corrupting the size
field of the block at 0x1000. -/
def autoDemo32b : AutoState := SharedPtr.drop autoDemo32a 4104

set_option maxRecDepth 10000 in
/-- C1: the partition invariant fails for AutoLinAlloc after a single
alloc/free round trip.  Initialize a 32-byte pool at 0x1000, allocate
one handle (0x1008), then drop it: because `BLOCK_INFO_SIZE` is
computed as `sizeof(MemBlock) - sizeof(char) = 11` while the content
offset is 8, the release decrements the word at 0x1001 and turns the
first block's size field into 0xFFFFFF0F, so the traversal from
`address_start` overshoots `address_end` instead of covering the region
exactly.  Before the drop the traversal still partitions the pool. -/
theorem c1_autolin_partition_broken :
    autoInit demoMem8 4096 32 = some autoDemo32 ∧
    autoDemo32.alloc 20 1 = some (4104, autoDemo32a) ∧
    autoDemo32a.partitionOk 20 = true ∧
    autoDemo32b.mem.readW 4096 = 4294967055 ∧
    autoDemo32b.partitionOk 20 = false :=
  ⟨rfl, rfl, rfl, rfl, rfl⟩

/-- C10: when `AutoLinAllocImpl::allocate` fails (status 1), the
`SharedPtr` returned by `AutoLinAlloc::alloc` is the untouched
default-constructed handle: null, with `is_allocated() = false`,
`get_ptr() = nullptr` and `get_size() = get_ref_count() = 0`. -/
theorem c10_failed_alloc_null_handle :
    ∀ (s s1 : AutoState) (fuel n st : Nat) (p : Option Nat),
      s.allocate fuel n = some (st, p, s1) → st = 1 →
      s.alloc fuel n = some (0, s1) ∧
      SharedPtr.isAllocated 0 = false ∧ SharedPtr.getPtr 0 = 0 ∧
      SharedPtr.getSize s1 0 = 0 ∧ SharedPtr.getRefCount s1 0 = 0 := by
  intro s s1 fuel n st p h hst
  have hp : p = none := by
    unfold AutoState.allocate at h
    by_cases hi : s.address_start = s.address_end
    · rw [if_pos hi] at h
      exact absurd h (by simp)
    · rw [if_neg hi] at h
      exact auto_allocLoop_status1 fuel s s1 _ _ st p h hst
  subst hp
  refine ⟨?_, rfl, rfl, rfl, rfl⟩
  unfold AutoState.alloc
  rw [h]
  rfl

set_option maxRecDepth 10000 in
/-- Witness for C10: a 16-byte pool cannot satisfy `alloc(100)`;
the failing call returns the null handle with all getters at 0. -/
theorem c10_witness :
    autoInit demoMem8 4096 16 = some autoDemo16 ∧
    autoDemo16.allocate 22 100 = some (1, none, autoDemo16) ∧
    (autoDemo16.alloc 22 100 = some (0, autoDemo16) ∧
      SharedPtr.isAllocated 0 = false ∧ SharedPtr.getPtr 0 = 0 ∧
      SharedPtr.getSize autoDemo16 0 = 0 ∧ SharedPtr.getRefCount autoDemo16 0 = 0) := by
  have hfail : autoDemo16.allocate 22 100 = some (1, none, autoDemo16) :=
    auto_fresh_alloc_fail demoMem8 4096 16 100 20 autoDemo16 rfl (by decide)
      (by decide) (by decide)
  refine ⟨rfl, hfail, ?_⟩
  exact c10_failed_alloc_null_handle autoDemo16 autoDemo16 22 100 1 none hfail rfl

/-- AutoLinAlloc pool of 276 bytes at 0x1000, freshly initialized. -/
def autoL0 : AutoState := (autoInit demoMem8 4096 276).getD ⟨demoMem8, 0, 0, 0⟩

/-- `autoL0` after `alloc(4)`: used block of 15 bytes at 0x1000 (handle
0x1008), free remainder at 0x100F. -/
def autoL1 : AutoState := ((autoL0.alloc 20 4).getD (0, autoL0)).2

/-- Second `alloc(4)`: used block of 15 bytes at 0x100F (handle 0x1017). -/
def autoL2 : AutoState := ((autoL1.alloc 20 4).getD (0, autoL1)).2

/-- Third `alloc(4)`: used block of 15 bytes at 0x101E (handle 0x1026). -/
def autoL3 : AutoState := ((autoL2.alloc 20 4).getD (0, autoL2)).2

/-- Fourth `alloc(4)`: used block of 15 bytes at 0x102D (handle 0x1035). -/
def autoL4 : AutoState := ((autoL3.alloc 20 4).getD (0, autoL3)).2

/-- `alloc(188)`: used block of 199 bytes at 0x103C (handle 0x1044);
the free remainder of 17 bytes starts at 0x1103; the search cursor now
rests on the block at 0x103C. -/
def autoL5 : AutoState := ((autoL4.alloc 20 188).getD (0, autoL4)).2

/-- `autoL5` after dropping the handle 0x1044: the release decrements
the word at `0x1044 - 11 + 4 = 0x103D`, turning the size field of the
block at 0x103C from 199 into 0xFFFFFFC7 and zeroing its ref-count
word, so the block looks free with a wildly wrapped size. -/
def autoL6 : AutoState := SharedPtr.drop autoL5 4164

/-- The state returned by the failing `allocate(208)` on `autoL6`. -/
def autoL7 : AutoState := ((autoL6.allocate 20 208).getD (0, none, autoL6)).2.2

set_option maxRecDepth 10000 in
/-- C5 counterexample: a failing AutoLinAlloc allocation that *changes*
a block header.  On the 276-byte pool carved by five allocations, drop
the last handle (block at 0x103C), then request 208 bytes (block size
219, more than any free run).  The scan starts at the cursor 0x103C,
finds the dropped block "free", and stores the contiguous free size
into its header (the lazy coalescing of `allocate`, tx_automemory.cpp
line 114): the walk first wraps through the corrupted size 0xFFFFFFC7
to 0x1003 — three bytes into the header of the used block at 0x1000,
where the next size word reads 256 (the neighbouring ref-count byte)
and the ref word reads 0 — hops to `0x1003 + 256 = 0x1103`, the free
remainder, and on to the pool end 0x1114, so the store rewrites the
header at 0x103C from 0xFFFFFFC7 to 216.  The fit test fails
(216 < 219), the advance wraps to the pool start, the scan passes the
four used 15-byte blocks, and stepping back onto 0x103C triggers the
wrap-over check, so the call returns the OutOfMemory status 1: a
failed allocation modified a block header, refuting the claim for
AutoLinAlloc. -/
theorem c5_counterexample :
    (autoInit demoMem8 4096 276).isSome = true ∧
    (autoL0.alloc 20 4).map Prod.fst = some 4104 ∧
    (autoL1.alloc 20 4).map Prod.fst = some 4119 ∧
    (autoL2.alloc 20 4).map Prod.fst = some 4134 ∧
    (autoL3.alloc 20 4).map Prod.fst = some 4149 ∧
    (autoL4.alloc 20 188).map Prod.fst = some 4164 ∧
    autoL5.mem.readW 4156 = 199 ∧
    autoL6.mem.readW 4156 = 4294967239 ∧ autoL6.mem.readW 4160 = 0 ∧
    (autoL6.allocate 20 208).map (fun r => (r.1, r.2.1)) = some (1, none) ∧
    autoL7.mem.readW 4156 = 216 :=
  ⟨rfl, rfl, rfl, rfl, rfl, rfl, rfl, rfl, rfl, rfl, rfl⟩

/-- C5 (amended): an allocation that fails with OutOfMemory does not
modify any block header — for LinAllocator, SequentialFitAllocator and
HalfFitAllocator, and for AutoLinAlloc from a freshly initialized pool.
Per allocator: (Lin) on a freshly initialized pool — the only states
reachable through the public interface, since this allocator's
`allocate` can only ever return 1 — every `allocate` returns 1 with the
state unchanged; (SeqFit) every terminating `allocate` that returns
status 1 leaves the state exactly as it was; (HalfFit) when every free
list above the target order is empty the call halts at the OutOfMemory
assert with the state unchanged; (AutoLinAlloc) on a freshly
initialized pool an oversized request returns 1 with the state
unchanged — there the failure path's store of the contiguous free size
into the scanned free block's header rewrites the value already
present.  In general AutoLinAlloc states that store does change
headers (the lazy coalescing), as the counterexample trace above
shows. -/
theorem c5_failed_alloc_leaves_headers :
    (∀ (m : Mem) (addr size n fuel : Nat) (s : LinState),
      linInit m addr size = some s →
      s.allocate (fuel + 1) n = some (1, none, s)) ∧
    (∀ (s s1 : SeqFitState) (fuel n st : Nat) (p : Option Nat),
      s.next_search_block < 4294967296 → s.address_start < 4294967296 →
      s.allocate fuel n = some (st, p, s1) → st = 1 → p = none ∧ s1 = s) ∧
    (∀ (s : HFState) (n : Nat),
      (∀ j, getOrderFromSize (hfAdjustSize n) + 1 ≤ j →
        j < s.free_block_list_size → s.slot j = 0) →
      s.allocate n = .error s) ∧
    (∀ (m : Mem8) (addr size n fuel : Nat) (s : AutoState),
      autoInit m addr size = some s → addr < 4294967296 → size < 4294967296 →
      size < autoBlockSize n → s.allocate (fuel + 2) n = some (1, none, s)) := by
  refine ⟨lin_fresh_alloc, ?_, hf_allocate_oom, auto_fresh_alloc_fail⟩
  intro s s1 fuel n st p h1 h2 h3 h4
  exact seq_allocate_fail h1 h2 h3 h4

set_option maxRecDepth 10000 in
/-- Witness for C5: each conjunct applied to a concrete failing
allocation. -/
theorem c5_witness :
    (linInit demoMem 4096 512 = some linDemo512 ∧
      linDemo512.allocate 5 4 = some (1, none, linDemo512)) ∧
    (seqDemo32.allocate 20 1000 = some (1, none, seqDemo32) ∧
      ((none : Option Nat) = none ∧ seqDemo32 = seqDemo32)) ∧
    hfDemo64.allocate 100 = .error hfDemo64 ∧
    autoDemo16.allocate 22 100 = some (1, none, autoDemo16) := by
  refine ⟨⟨rfl, ?_⟩, ⟨rfl, ?_⟩, ?_, ?_⟩
  · exact c5_failed_alloc_leaves_headers.1 demoMem 4096 512 4 4 linDemo512 rfl
  · exact c5_failed_alloc_leaves_headers.2.1 seqDemo32 seqDemo32 20 1000 1 none
      (by decide) (by decide) rfl rfl
  · refine c5_failed_alloc_leaves_headers.2.2.1 hfDemo64 100 ?_
    intro j hj1 hj2
    rw [show hfDemo64.free_block_list_size = 1 from rfl] at hj2
    omega
  · exact c5_failed_alloc_leaves_headers.2.2.2 demoMem8 4096 16 100 20 autoDemo16 rfl
      (by decide) (by decide) (by decide)

set_option maxRecDepth 10000 in
/-- C4 counterexample: OutOfMemory is *not* surfaced as a distinguished
return value by every allocator.  On a 64-byte HalfFit pool,
`allocate(100)` reaches a failing `TX_ASSERT` — a halt, not a return
(`Except.error`).  And on a 32-byte SeqFit pool, `alloc(1000)` discards
`allocate`'s status 1 and returns the local `result` variable that was
never written (no distinguished value; `none` models the indeterminate
pointer). -/
theorem c4_counterexample :
    (hfInit demoMem 0 0 4096 64 = some hfDemo64 ∧
      hfDemo64.allocate 100 = .error hfDemo64) ∧
    (seqInit demoMem 4096 32 = some seqDemo32 ∧
      seqDemo32.alloc 20 1000 = some (none, seqDemo32)) :=
  ⟨⟨rfl, rfl⟩, ⟨rfl, rfl⟩⟩

/-- C4 (amended): LinearAllocator surfaces OutOfMemory as the status
value 1 and AutoLinAlloc as the null handle, without halting;
HalfFitAllocator instead *halts* on a failing assert when no free list
of order strictly above the target order holds a block; and
SequentialFitAllocator's `alloc` discards the failure status and
returns an indeterminate pointer (no distinguished value). -/
theorem c4_oom_surfacing :
    (∀ (m : Mem) (addr size n fuel : Nat) (s : LinState),
      linInit m addr size = some s →
      s.allocate (fuel + 1) n = some (1, none, s)) ∧
    (∀ (s s1 : AutoState) (fuel n st : Nat) (p : Option Nat),
      s.allocate fuel n = some (st, p, s1) → st = 1 →
      s.alloc fuel n = some (0, s1)) ∧
    (∀ (s : HFState) (n : Nat),
      (∀ j, getOrderFromSize (hfAdjustSize n) + 1 ≤ j →
        j < s.free_block_list_size → s.slot j = 0) →
      s.allocate n = .error s) ∧
    (∀ (s s1 : SeqFitState) (fuel n st : Nat) (p : Option Nat),
      s.next_search_block < 4294967296 → s.address_start < 4294967296 →
      s.allocate fuel n = some (st, p, s1) → st = 1 →
      s.alloc fuel n = some (none, s1)) := by
  refine ⟨lin_fresh_alloc, ?_, hf_allocate_oom, ?_⟩
  · intro s s1 fuel n st p h hst
    have hp : p = none := by
      unfold AutoState.allocate at h
      by_cases hi : s.address_start = s.address_end
      · rw [if_pos hi] at h
        exact absurd h (by simp)
      · rw [if_neg hi] at h
        exact auto_allocLoop_status1 fuel s s1 _ _ st p h hst
    subst hp
    unfold AutoState.alloc
    rw [h]
    rfl
  · intro s s1 fuel n st p h1 h2 h3 h4
    obtain ⟨hp, _⟩ := seq_allocate_fail h1 h2 h3 h4
    subst hp
    unfold SeqFitState.alloc
    rw [h3]

set_option maxRecDepth 10000 in
/-- Witness for C4: each conjunct applied to a concrete failing
allocation. -/
theorem c4_witness :
    (linInit demoMem 4096 512 = some linDemo512 ∧
      linDemo512.allocate 5 4 = some (1, none, linDemo512)) ∧
    autoDemo16.alloc 22 100 = some (0, autoDemo16) ∧
    hfDemo64.allocate 100 = .error hfDemo64 ∧
    seqDemo32.alloc 20 1000 = some (none, seqDemo32) := by
  refine ⟨⟨rfl, ?_⟩, ?_, ?_, ?_⟩
  · exact c4_oom_surfacing.1 demoMem 4096 512 4 4 linDemo512 rfl
  · exact c4_oom_surfacing.2.1 autoDemo16 autoDemo16 22 100 1 none
      (auto_fresh_alloc_fail demoMem8 4096 16 100 20 autoDemo16 rfl (by decide)
        (by decide) (by decide)) rfl
  · refine c4_oom_surfacing.2.2.1 hfDemo64 100 ?_
    intro j hj1 hj2
    rw [show hfDemo64.free_block_list_size = 1 from rfl] at hj2
    omega
  · exact c4_oom_surfacing.2.2.2 seqDemo32 seqDemo32 20 1000 1 none
      (by decide) (by decide) rfl rfl

/-! ### HalfFit coalescing (claim C6)

Freeing a used block with no free neighbour writes its header, footer
and `ref_count` and pushes it on the head of its order's (empty) list:
six writes.  `hfMarkFree` is that write chain.  The order of a block is
taken as an explicit parameter `k` together with an equation
`getOrderFromSize _ = k`, keeping the arithmetic over plain atoms. -/

/-- The writes `HFState.free` performs on a block at `b` of size `v`
when nothing is absorbed and the free list of order `k` is empty:
header, footer, `ref_count = 0`, `prev = next = nullptr`, list head. -/
def hfMarkFree (m : Mem) (fbl b v k : Nat) : Mem :=
  (((((m.write b v).write (b + v - 4) v).write (b + 4) 0).write (b + 8) 0).write
    (b + 12) 0).write (fbl + 4 * k) b

/-- `free` on a used block at the pool start whose successor block is
used: no merge, the block is registered under its own order (list
empty). -/
theorem hf_free_start_next_used (s : HFState) (A a ka : Nat)
    (hka : getOrderFromSize a = ka)
    (hstart : s.address_start = A)
    (hnotend : A + a ≠ s.address_end)
    (ha : 32 ≤ a) (hbound : A + a < 4294967296)
    (hszA : s.mem.read A = a)
    (hftA : s.mem.read (A + a - 4) = a)
    (hrefA : s.mem.read (A + 4) > 0)
    (hrefB : s.mem.read (A + a + 4) > 0)
    (hslotpos : s.free_block_list + 4 * ka < A)
    (hslot : s.mem.read (s.free_block_list + 4 * ka) = 0) :
    s.free (A + 8) = .ok { s with mem := hfMarkFree s.mem s.free_block_list A a ka } := by
  unfold HFState.free
  rw [show wsub32 (A + 8) 8 = A from wsub32_eq_sub (by omega) (by omega)]
  dsimp only
  rw [hszA]
  rw [show w32 (A + a) = A + a from w32_eq_of_lt hbound]
  rw [show wsub32 (A + a) 4 = A + a - 4 from wsub32_eq_sub (by omega) (by omega)]
  rw [hftA]
  rw [if_pos ⟨rfl, hrefA⟩]
  rw [if_pos hnotend]
  rw [if_neg (by omega : ¬ s.mem.read (A + a + 4) = 0)]
  dsimp only
  rw [hstart]
  rw [if_neg (show ¬ (A ≠ A) by omega)]
  dsimp only
  rw [Mem.read_write_same]
  rw [show w32 (A + a) = A + a from w32_eq_of_lt hbound]
  rw [show wsub32 (A + a) 4 = A + a - 4 from wsub32_eq_sub (by omega) (by omega)]
  unfold HFState.registerFreeBlock
  have hordread : ((((s.mem.write A a).write (A + a - 4) a).write (A + 4) 0) :
      Mem).read A = a := by
    rw [Mem.read_write_ne _ _ (by omega), Mem.read_write_ne _ _ (by omega),
      Mem.read_write_same]
  dsimp only
  rw [hordread, hka]
  have hheadread : ((((s.mem.write A a).write (A + a - 4) a).write (A + 4) 0) :
      Mem).read (s.free_block_list + 4 * ka) = 0 := by
    rw [Mem.read_write_ne _ _ (by omega), Mem.read_write_ne _ _ (by omega),
      Mem.read_write_ne _ _ (by omega)]
    exact hslot
  unfold HFState.slot
  dsimp only
  rw [hheadread]
  rw [if_neg (by omega : ¬ (0 : Nat) ≠ 0)]
  rw [hstart]
  rfl

/-- `free` on a used block whose successor is the pool end and whose
predecessor block (found through the boundary tag at `B - 4`) is used:
no merge, the block is registered under its own order (list empty). -/
theorem hf_free_end_prev_used (s : HFState) (B b pa kb : Nat)
    (hkb : getOrderFromSize b = kb)
    (hnotstart : B ≠ s.address_start)
    (hend : B + b = s.address_end)
    (hb : 32 ≤ b) (hbound : B + b < 4294967296) (hB4 : 4 ≤ B)
    (hszB : s.mem.read B = b)
    (hftB : s.mem.read (B + b - 4) = b)
    (hrefB : s.mem.read (B + 4) > 0)
    (hprevft : s.mem.read (B - 4) = pa)
    (hpa : pa ≤ B)
    (hrefP : s.mem.read (B - pa + 4) > 0)
    (hslotpos : s.free_block_list + 4 * kb < B)
    (hslot : s.mem.read (s.free_block_list + 4 * kb) = 0) :
    s.free (B + 8) = .ok { s with mem := hfMarkFree s.mem s.free_block_list B b kb } := by
  unfold HFState.free
  rw [show wsub32 (B + 8) 8 = B from wsub32_eq_sub (by omega) (by omega)]
  dsimp only
  rw [hszB]
  rw [show w32 (B + b) = B + b from w32_eq_of_lt hbound]
  rw [show wsub32 (B + b) 4 = B + b - 4 from wsub32_eq_sub (by omega) (by omega)]
  rw [hftB]
  rw [if_pos ⟨rfl, hrefB⟩]
  rw [if_neg (show ¬ (B + b ≠ s.address_end) by omega)]
  dsimp only
  rw [if_pos hnotstart]
  rw [show wsub32 B 4 = B - 4 from wsub32_eq_sub (by omega) (by omega)]
  rw [hprevft]
  rw [show wsub32 B pa = B - pa from wsub32_eq_sub hpa (by omega)]
  rw [if_neg (by omega : ¬ s.mem.read (B - pa + 4) = 0)]
  dsimp only
  rw [Mem.read_write_same]
  rw [show w32 (B + b) = B + b from w32_eq_of_lt hbound]
  rw [show wsub32 (B + b) 4 = B + b - 4 from wsub32_eq_sub (by omega) (by omega)]
  unfold HFState.registerFreeBlock
  have hordread : ((((s.mem.write B b).write (B + b - 4) b).write (B + 4) 0) :
      Mem).read B = b := by
    rw [Mem.read_write_ne _ _ (by omega), Mem.read_write_ne _ _ (by omega),
      Mem.read_write_same]
  dsimp only
  rw [hordread, hkb]
  have hheadread : ((((s.mem.write B b).write (B + b - 4) b).write (B + 4) 0) :
      Mem).read (s.free_block_list + 4 * kb) = 0 := by
    rw [Mem.read_write_ne _ _ (by omega), Mem.read_write_ne _ _ (by omega),
      Mem.read_write_ne _ _ (by omega)]
    exact hslot
  unfold HFState.slot
  dsimp only
  rw [hheadread]
  rw [if_neg (by omega : ¬ (0 : Nat) ≠ 0)]
  rfl

/-- The memory after coalescing the pair: the just-freed block is
unlinked again (its order's list head reset to null) and the merged
block of size `a + b` is written and registered. -/
def hfMergedMem (m : Mem) (fbl A a b ka kab : Nat) : Mem :=
  hfMarkFree ((hfMarkFree m fbl A a ka).write (fbl + 4 * ka) 0) fbl A (a + b) kab

/-- `free` on the used block at `A + a` (successor: pool end) after the
block at `A` (pool start) has just been freed: the free predecessor is
unlinked from its list and absorbed, and the merged block of size
`a + b` is registered under its recomputed order. -/
theorem hf_free_B_after_A (s : HFState) (A a b ka kab : Nat)
    (hgka : getOrderFromSize a = ka) (hgkab : getOrderFromSize (a + b) = kab)
    (hstart : s.address_start = A) (hend : s.address_end = A + a + b)
    (ha : 32 ≤ a) (hb : 32 ≤ b) (hbound : A + a + b < 4294967296)
    (hSA : s.free_block_list + 4 * ka < A)
    (hSAB : s.free_block_list + 4 * kab < A)
    (hszB : s.mem.read (A + a) = b) (hftB : s.mem.read (A + a + b - 4) = b)
    (hrefB : s.mem.read (A + a + 4) > 0)
    (hslAB : s.mem.read (s.free_block_list + 4 * kab) = 0) :
    HFState.free { s with mem := hfMarkFree s.mem s.free_block_list A a ka }
        (A + a + 8) =
      .ok { s with mem := hfMergedMem s.mem s.free_block_list A a b ka kab } := by
  have rA : (hfMarkFree s.mem s.free_block_list A a ka).read (A + a) = b := by
    unfold hfMarkFree
    rw [Mem.read_write_ne _ _ (by omega), Mem.read_write_ne _ _ (by omega),
      Mem.read_write_ne _ _ (by omega), Mem.read_write_ne _ _ (by omega),
      Mem.read_write_ne _ _ (by omega), Mem.read_write_ne _ _ (by omega)]
    exact hszB
  have rft : (hfMarkFree s.mem s.free_block_list A a ka).read (A + a + b - 4) = b := by
    unfold hfMarkFree
    rw [Mem.read_write_ne _ _ (by omega), Mem.read_write_ne _ _ (by omega),
      Mem.read_write_ne _ _ (by omega), Mem.read_write_ne _ _ (by omega),
      Mem.read_write_ne _ _ (by omega), Mem.read_write_ne _ _ (by omega)]
    exact hftB
  have rref : (hfMarkFree s.mem s.free_block_list A a ka).read (A + a + 4) > 0 := by
    unfold hfMarkFree
    rw [Mem.read_write_ne _ _ (by omega), Mem.read_write_ne _ _ (by omega),
      Mem.read_write_ne _ _ (by omega), Mem.read_write_ne _ _ (by omega),
      Mem.read_write_ne _ _ (by omega), Mem.read_write_ne _ _ (by omega)]
    exact hrefB
  have rfootA : (hfMarkFree s.mem s.free_block_list A a ka).read (A + a - 4) = a := by
    unfold hfMarkFree
    rw [Mem.read_write_ne _ _ (by omega), Mem.read_write_ne _ _ (by omega),
      Mem.read_write_ne _ _ (by omega), Mem.read_write_ne _ _ (by omega),
      Mem.read_write_same]
  have rrefA : (hfMarkFree s.mem s.free_block_list A a ka).read (A + 4) = 0 := by
    unfold hfMarkFree
    rw [Mem.read_write_ne _ _ (by omega), Mem.read_write_ne _ _ (by omega),
      Mem.read_write_ne _ _ (by omega), Mem.read_write_same]
  have rp8 : (hfMarkFree s.mem s.free_block_list A a ka).read (A + 8) = 0 := by
    unfold hfMarkFree
    rw [Mem.read_write_ne _ _ (by omega), Mem.read_write_ne _ _ (by omega),
      Mem.read_write_same]
  have rp12 : (hfMarkFree s.mem s.free_block_list A a ka).read (A + 12) = 0 := by
    unfold hfMarkFree
    rw [Mem.read_write_ne _ _ (by omega), Mem.read_write_same]
  have rszA : (hfMarkFree s.mem s.free_block_list A a ka).read A = a := by
    unfold hfMarkFree
    rw [Mem.read_write_ne _ _ (by omega), Mem.read_write_ne _ _ (by omega),
      Mem.read_write_ne _ _ (by omega), Mem.read_write_ne _ _ (by omega),
      Mem.read_write_ne _ _ (by omega), Mem.read_write_same]
  unfold HFState.free
  rw [show wsub32 (A + a + 8) 8 = A + a from wsub32_eq_sub (by omega) (by omega)]
  dsimp only
  rw [rA]
  rw [show w32 (A + a + b) = A + a + b from w32_eq_of_lt hbound]
  rw [show wsub32 (A + a + b) 4 = A + a + b - 4 from wsub32_eq_sub (by omega) (by omega)]
  rw [rft]
  rw [if_pos ⟨rfl, rref⟩]
  rw [if_neg (show ¬ (A + a + b ≠ s.address_end) by rw [hend]; omega)]
  dsimp only
  rw [hstart]
  rw [if_pos (show A + a ≠ A by omega)]
  rw [show wsub32 (A + a) 4 = A + a - 4 from wsub32_eq_sub (by omega) (by omega)]
  rw [rfootA]
  rw [show wsub32 (A + a) a = A from by rw [wsub32_eq_sub (by omega) (by omega)]; omega]
  rw [if_pos rrefA]
  unfold HFState.unregisterFreeBlock
  dsimp only
  rw [rp8, rp12, rszA, hgka]
  rw [if_neg (by omega : ¬ (0 : Nat) ≠ 0)]
  rw [if_neg (by omega : ¬ (0 : Nat) ≠ 0)]
  dsimp only
  rw [Mem.read_write_ne _ _ (by omega), rszA]
  rw [show w32 (b + a) = a + b by unfold w32; omega]
  rw [Mem.read_write_same]
  rw [show w32 (A + (a + b)) = A + (a + b) from w32_eq_of_lt (by omega)]
  rw [show wsub32 (A + (a + b)) 4 = A + a + b - 4 from by
    rw [wsub32_eq_sub (by omega) (by omega)]; omega]
  unfold HFState.registerFreeBlock
  dsimp only
  have hordread : ((((((hfMarkFree s.mem s.free_block_list A a ka).write
      (s.free_block_list + 4 * ka) 0).write A (a + b)).write
      (A + a + b - 4) (a + b)).write (A + 4) 0) : Mem).read A = a + b := by
    rw [Mem.read_write_ne _ _ (by omega), Mem.read_write_ne _ _ (by omega),
      Mem.read_write_same]
  rw [hordread, hgkab]
  have hheadread : ((((((hfMarkFree s.mem s.free_block_list A a ka).write
      (s.free_block_list + 4 * ka) 0).write A (a + b)).write
      (A + a + b - 4) (a + b)).write (A + 4) 0) : Mem).read
      (s.free_block_list + 4 * kab) = 0 := by
    rw [Mem.read_write_ne _ _ (by omega), Mem.read_write_ne _ _ (by omega),
      Mem.read_write_ne _ _ (by omega)]
    by_cases hso : kab = ka
    · rw [hso, Mem.read_write_same]
    · rw [Mem.read_write_ne _ _ (by
        intro hc
        exact hso (by omega))]
      unfold hfMarkFree
      rw [Mem.read_write_ne _ _ (by
          intro hc
          exact hso (by omega)),
        Mem.read_write_ne _ _ (by omega), Mem.read_write_ne _ _ (by omega),
        Mem.read_write_ne _ _ (by omega), Mem.read_write_ne _ _ (by omega),
        Mem.read_write_ne _ _ (by omega)]
      exact hslAB
  unfold HFState.slot
  dsimp only
  rw [hheadread]
  rw [if_neg (by omega : ¬ (0 : Nat) ≠ 0)]
  unfold hfMergedMem hfMarkFree
  rw [show A + (a + b) - 4 = A + a + b - 4 by omega]

/-- The memory after coalescing the pair in the other order. -/
def hfMergedMem2 (m : Mem) (fbl A a b kb kab : Nat) : Mem :=
  hfMarkFree ((hfMarkFree m fbl (A + a) b kb).write (fbl + 4 * kb) 0) fbl A (a + b) kab

set_option maxHeartbeats 1000000 in
/-- `free` on the used block at `A` (pool start) after the block at
`A + a` (successor: pool end) has just been freed: the free successor is
unlinked from its list and absorbed, and the merged block of size
`a + b` is registered under its recomputed order. -/
theorem hf_free_A_after_B (s : HFState) (A a b kb kab : Nat)
    (hgkb : getOrderFromSize b = kb) (hgkab : getOrderFromSize (a + b) = kab)
    (hstart : s.address_start = A) (hend : s.address_end = A + a + b)
    (ha : 32 ≤ a) (hb : 32 ≤ b) (hbound : A + a + b < 4294967296)
    (hSB : s.free_block_list + 4 * kb < A)
    (hSAB : s.free_block_list + 4 * kab < A)
    (hszA : s.mem.read A = a) (hftA : s.mem.read (A + a - 4) = a)
    (hrefA : s.mem.read (A + 4) > 0)
    (hslAB : s.mem.read (s.free_block_list + 4 * kab) = 0) :
    HFState.free { s with mem := hfMarkFree s.mem s.free_block_list (A + a) b kb }
        (A + 8) =
      .ok { s with mem := hfMergedMem2 s.mem s.free_block_list A a b kb kab } := by
  have rA : (hfMarkFree s.mem s.free_block_list (A + a) b kb).read A = a := by
    unfold hfMarkFree
    rw [Mem.read_write_ne _ _ (by omega), Mem.read_write_ne _ _ (by omega),
      Mem.read_write_ne _ _ (by omega), Mem.read_write_ne _ _ (by omega),
      Mem.read_write_ne _ _ (by omega), Mem.read_write_ne _ _ (by omega)]
    exact hszA
  have rftA : (hfMarkFree s.mem s.free_block_list (A + a) b kb).read (A + a - 4) = a := by
    unfold hfMarkFree
    rw [Mem.read_write_ne _ _ (by omega), Mem.read_write_ne _ _ (by omega),
      Mem.read_write_ne _ _ (by omega), Mem.read_write_ne _ _ (by omega),
      Mem.read_write_ne _ _ (by omega), Mem.read_write_ne _ _ (by omega)]
    exact hftA
  have rrefA : (hfMarkFree s.mem s.free_block_list (A + a) b kb).read (A + 4) > 0 := by
    unfold hfMarkFree
    rw [Mem.read_write_ne _ _ (by omega), Mem.read_write_ne _ _ (by omega),
      Mem.read_write_ne _ _ (by omega), Mem.read_write_ne _ _ (by omega),
      Mem.read_write_ne _ _ (by omega), Mem.read_write_ne _ _ (by omega)]
    exact hrefA
  have rrefB : (hfMarkFree s.mem s.free_block_list (A + a) b kb).read (A + a + 4) = 0 := by
    unfold hfMarkFree
    rw [Mem.read_write_ne _ _ (by omega), Mem.read_write_ne _ _ (by omega),
      Mem.read_write_ne _ _ (by omega), Mem.read_write_same]
  have rp8 : (hfMarkFree s.mem s.free_block_list (A + a) b kb).read (A + a + 8) = 0 := by
    unfold hfMarkFree
    rw [Mem.read_write_ne _ _ (by omega), Mem.read_write_ne _ _ (by omega),
      Mem.read_write_same]
  have rp12 : (hfMarkFree s.mem s.free_block_list (A + a) b kb).read (A + a + 12) = 0 := by
    unfold hfMarkFree
    rw [Mem.read_write_ne _ _ (by omega), Mem.read_write_same]
  have rszB : (hfMarkFree s.mem s.free_block_list (A + a) b kb).read (A + a) = b := by
    unfold hfMarkFree
    rw [Mem.read_write_ne _ _ (by omega), Mem.read_write_ne _ _ (by omega),
      Mem.read_write_ne _ _ (by omega), Mem.read_write_ne _ _ (by omega),
      Mem.read_write_ne _ _ (by omega), Mem.read_write_same]
  unfold HFState.free
  rw [show wsub32 (A + 8) 8 = A from wsub32_eq_sub (by omega) (by omega)]
  dsimp only
  rw [rA]
  rw [show w32 (A + a) = A + a from w32_eq_of_lt (by omega)]
  rw [show wsub32 (A + a) 4 = A + a - 4 from wsub32_eq_sub (by omega) (by omega)]
  rw [rftA]
  rw [if_pos ⟨rfl, rrefA⟩]
  rw [if_pos (show A + a ≠ s.address_end by rw [hend]; omega)]
  rw [rrefB, if_pos rfl]
  unfold HFState.unregisterFreeBlock
  dsimp only
  rw [rp8, rp12, rszB, hgkb]
  rw [if_neg (by omega : ¬ (0 : Nat) ≠ 0)]
  rw [if_neg (by omega : ¬ (0 : Nat) ≠ 0)]
  dsimp only
  rw [hstart]
  rw [if_neg (show ¬ (A ≠ A) by omega)]
  dsimp only
  rw [Mem.read_write_ne _ _ (by omega), rszB]
  rw [show w32 (a + b) = a + b from w32_eq_of_lt (by omega)]
  rw [Mem.read_write_same]
  rw [show w32 (A + (a + b)) = A + (a + b) from w32_eq_of_lt (by omega)]
  rw [show wsub32 (A + (a + b)) 4 = A + a + b - 4 from by
    rw [wsub32_eq_sub (by omega) (by omega)]; omega]
  unfold HFState.registerFreeBlock
  dsimp only
  have hordread : ((((((hfMarkFree s.mem s.free_block_list (A + a) b kb).write
      (s.free_block_list + 4 * kb) 0).write A (a + b)).write
      (A + a + b - 4) (a + b)).write (A + 4) 0) : Mem).read A = a + b := by
    rw [Mem.read_write_ne _ _ (by omega), Mem.read_write_ne _ _ (by omega),
      Mem.read_write_same]
  rw [hordread, hgkab]
  have hheadread : ((((((hfMarkFree s.mem s.free_block_list (A + a) b kb).write
      (s.free_block_list + 4 * kb) 0).write A (a + b)).write
      (A + a + b - 4) (a + b)).write (A + 4) 0) : Mem).read
      (s.free_block_list + 4 * kab) = 0 := by
    rw [Mem.read_write_ne _ _ (by omega), Mem.read_write_ne _ _ (by omega),
      Mem.read_write_ne _ _ (by omega)]
    by_cases hso : kab = kb
    · rw [hso, Mem.read_write_same]
    · rw [Mem.read_write_ne _ _ (by
        intro hc
        exact hso (by omega))]
      unfold hfMarkFree
      rw [Mem.read_write_ne _ _ (by
          intro hc
          exact hso (by omega)),
        Mem.read_write_ne _ _ (by omega), Mem.read_write_ne _ _ (by omega),
        Mem.read_write_ne _ _ (by omega), Mem.read_write_ne _ _ (by omega),
        Mem.read_write_ne _ _ (by omega)]
      exact hslAB
  unfold HFState.slot
  dsimp only
  rw [hheadread]
  rw [if_neg (by omega : ¬ (0 : Nat) ≠ 0)]
  unfold hfMergedMem2 hfMarkFree
  rw [show A + (a + b) - 4 = A + a + b - 4 by omega]

/-- The claim's partition traversal for a HalfFit pool: walk blocks by
`address + size` from a given address; `true` iff the walk lands exactly
on `address_end`. -/
def hfWalk : Nat → HFState → Nat → Bool
  | 0, _, _ => false
  | fuel + 1, s, a =>
    if a = s.address_end then true
    else if a > s.address_end then false
    else if s.mem.read a = 0 then false
    else hfWalk fuel s (a + s.mem.read a)

theorem hfMarkFree_reads (mm : Mem) (fbl A v k : Nat) (hv : 32 ≤ v)
    (hsk : fbl + 4 * k < A) :
    (hfMarkFree mm fbl A v k).read A = v ∧
    (hfMarkFree mm fbl A v k).read (A + v - 4) = v ∧
    (hfMarkFree mm fbl A v k).read (A + 4) = 0 ∧
    (hfMarkFree mm fbl A v k).read (fbl + 4 * k) = A := by
  unfold hfMarkFree
  refine ⟨?_, ?_, ?_, ?_⟩
  · rw [Mem.read_write_ne _ _ (by omega), Mem.read_write_ne _ _ (by omega),
      Mem.read_write_ne _ _ (by omega), Mem.read_write_ne _ _ (by omega),
      Mem.read_write_ne _ _ (by omega), Mem.read_write_same]
  · rw [Mem.read_write_ne _ _ (by omega), Mem.read_write_ne _ _ (by omega),
      Mem.read_write_ne _ _ (by omega), Mem.read_write_ne _ _ (by omega),
      Mem.read_write_same]
  · rw [Mem.read_write_ne _ _ (by omega), Mem.read_write_ne _ _ (by omega),
      Mem.read_write_ne _ _ (by omega), Mem.read_write_same]
  · rw [Mem.read_write_same]

/-- C6: in a HalfFit pool holding exactly two adjacent used blocks — `a`
bytes at the pool start `A` and `b` bytes ending at the pool end — with
valid boundary tags and all free lists empty, freeing the two blocks in
*either* order produces a single free block at `A` whose size is
`a + b`, with matching header and footer size fields and `ref_count = 0`,
registered at the head of the free list of the order recomputed from
`a + b`; the partition traversal then covers the pool in one step. -/
theorem c6_halffit_coalescing (s : HFState) (A a b : Nat)
    (hstart : s.address_start = A) (hend : s.address_end = A + a + b)
    (ha : 32 ≤ a) (hb : 32 ≤ b) (hbound : A + a + b < 4294967296)
    (hsl : s.free_block_list + 4 * s.free_block_list_size ≤ A)
    (hka : getOrderFromSize a < s.free_block_list_size)
    (hkb : getOrderFromSize b < s.free_block_list_size)
    (hkab : getOrderFromSize (a + b) < s.free_block_list_size)
    (hszA : s.mem.read A = a) (hftA : s.mem.read (A + a - 4) = a)
    (hrefA : s.mem.read (A + 4) > 0)
    (hszB : s.mem.read (A + a) = b) (hftB : s.mem.read (A + a + b - 4) = b)
    (hrefB : s.mem.read (A + a + 4) > 0)
    (hslA : s.mem.read (s.free_block_list + 4 * getOrderFromSize a) = 0)
    (hslB : s.mem.read (s.free_block_list + 4 * getOrderFromSize b) = 0)
    (hslAB : s.mem.read (s.free_block_list + 4 * getOrderFromSize (a + b)) = 0) :
    (∃ s1 u : HFState,
      s.free (A + 8) = .ok s1 ∧ s1.free (A + a + 8) = .ok u ∧
      u.mem.read A = a + b ∧ u.mem.read (A + a + b - 4) = a + b ∧
      u.mem.read (A + 4) = 0 ∧ u.slot (getOrderFromSize (a + b)) = A ∧
      hfWalk 2 u u.address_start = true) ∧
    (∃ s1 v : HFState,
      s.free (A + a + 8) = .ok s1 ∧ s1.free (A + 8) = .ok v ∧
      v.mem.read A = a + b ∧ v.mem.read (A + a + b - 4) = a + b ∧
      v.mem.read (A + 4) = 0 ∧ v.slot (getOrderFromSize (a + b)) = A ∧
      hfWalk 2 v v.address_start = true) := by
  obtain ⟨ka, hga⟩ : ∃ k, getOrderFromSize a = k := ⟨_, rfl⟩
  obtain ⟨kb, hgb⟩ : ∃ k, getOrderFromSize b = k := ⟨_, rfl⟩
  obtain ⟨kab, hgab⟩ : ∃ k, getOrderFromSize (a + b) = k := ⟨_, rfl⟩
  rw [hga] at hka hslA
  rw [hgb] at hkb hslB
  rw [hgab] at hkab hslAB ⊢
  have hprops : ∀ mm : Mem,
      (hfMarkFree mm s.free_block_list A (a + b) kab).read A = a + b ∧
      (hfMarkFree mm s.free_block_list A (a + b) kab).read (A + a + b - 4) = a + b ∧
      (hfMarkFree mm s.free_block_list A (a + b) kab).read (A + 4) = 0 ∧
      (hfMarkFree mm s.free_block_list A (a + b) kab).read
        (s.free_block_list + 4 * kab) = A := by
    intro mm
    obtain ⟨q1, q2, q3, q4⟩ := hfMarkFree_reads mm s.free_block_list A (a + b)
      kab (by omega) (by omega)
    rw [show A + (a + b) - 4 = A + a + b - 4 by omega] at q2
    exact ⟨q1, q2, q3, q4⟩
  have hwalk : ∀ w : HFState, w.address_start = A → w.address_end = A + a + b →
      w.mem.read A = a + b → hfWalk 2 w w.address_start = true := by
    intro w hws hwe hwr
    rw [hws]
    unfold hfWalk
    rw [hwe]
    rw [if_neg (by omega : ¬ A = A + a + b)]
    rw [if_neg (by omega : ¬ A > A + a + b)]
    rw [hwr]
    rw [if_neg (by omega : ¬ a + b = 0)]
    unfold hfWalk
    rw [hwe]
    rw [if_pos (by omega : A + (a + b) = A + a + b)]
  constructor
  · have h1 := hf_free_start_next_used s A a ka hga hstart (by rw [hend]; omega) ha
      (by omega) hszA hftA hrefA hrefB (by omega) hslA
    have h2 := hf_free_B_after_A s A a b ka kab hga hgab hstart hend ha hb hbound
      (by omega) (by omega) hszB hftB hrefB hslAB
    exact ⟨{ s with mem := hfMarkFree s.mem s.free_block_list A a ka },
      { s with mem := hfMergedMem s.mem s.free_block_list A a b ka kab },
      h1, h2, (hprops _).1, (hprops _).2.1, (hprops _).2.2.1, (hprops _).2.2.2,
      hwalk _ hstart hend (hprops _).1⟩
  · have h1 := hf_free_end_prev_used s (A + a) b a kb hgb (by rw [hstart]; omega)
      (by rw [hend]) hb (by omega) (by omega) hszB hftB hrefB hftA (by omega)
      (by rw [show A + a - a + 4 = A + 4 by omega]; exact hrefA) (by omega) hslB
    have h2 := hf_free_A_after_B s A a b kb kab hgb hgab hstart hend ha hb hbound
      (by omega) (by omega) hszA hftA hrefA hslAB
    exact ⟨{ s with mem := hfMarkFree s.mem s.free_block_list (A + a) b kb },
      { s with mem := hfMergedMem2 s.mem s.free_block_list A a b kb kab },
      h1, h2, (hprops _).1, (hprops _).2.1, (hprops _).2.2.1, (hprops _).2.2.2,
      hwalk _ hstart hend (hprops _).1⟩

/-- A concrete HalfFit pool for the coalescing scenario: two used
32-byte blocks at 4096 and 4128 (pool end 4160), valid header, footer
and `ref_count = 1` words, free-list head array of two orders at 0,
both heads null. -/
def hfPairMem : Mem := fun addr =>
  if addr = 4096 then 32
  else if addr = 4100 then 1
  else if addr = 4124 then 32
  else if addr = 4128 then 32
  else if addr = 4132 then 1
  else if addr = 4156 then 32
  else 0

/-- The HalfFit state over `hfPairMem`. -/
def hfPairState : HFState :=
  { mem := hfPairMem, free_block_list := 0, free_block_list_size := 2,
    address_start := 4096, address_end := 4160 }

/-- Witness for C6: the coalescing theorem applied to the concrete
two-block pool `hfPairState` (`A = 4096`, `a = b = 32`). -/
theorem c6_witness :
    (∃ s1 u : HFState,
      hfPairState.free (4096 + 8) = .ok s1 ∧ s1.free (4096 + 32 + 8) = .ok u ∧
      u.mem.read 4096 = 32 + 32 ∧ u.mem.read (4096 + 32 + 32 - 4) = 32 + 32 ∧
      u.mem.read (4096 + 4) = 0 ∧ u.slot (getOrderFromSize (32 + 32)) = 4096 ∧
      hfWalk 2 u u.address_start = true) ∧
    (∃ s1 v : HFState,
      hfPairState.free (4096 + 32 + 8) = .ok s1 ∧ s1.free (4096 + 8) = .ok v ∧
      v.mem.read 4096 = 32 + 32 ∧ v.mem.read (4096 + 32 + 32 - 4) = 32 + 32 ∧
      v.mem.read (4096 + 4) = 0 ∧ v.slot (getOrderFromSize (32 + 32)) = 4096 ∧
      hfWalk 2 v v.address_start = true) :=
  c6_halffit_coalescing hfPairState 4096 32 32 rfl rfl (by decide) (by decide)
    (by decide) (by decide) (by decide) (by decide) (by decide) rfl rfl
    (by decide) rfl rfl (by decide) rfl rfl rfl

end TxMem
